import Mathlib

/-!
# forjj: driver flag composition, resolution and parameter assembly

A shallow embedding of the driver-flag code of forjj (`app.go`,
`drivers_options.go`) and the properties of it that the specification states.

Conventions of the embedding:

* A Go `map[string]V` is a `GoMap V`: an association list whose keys are
  pairwise distinct.  The order of the list is the order in which a `range`
  loop happens to visit the map (Go leaves it unspecified), so every statement
  that quantifies over the list quantifies over all visiting orders.
* A Go `string` is a Lean `String`.
* Pointers to records (`*Driver`, `*ActionOpts`) are embedded by value; a
  pointer that may be `nil` is an `Option`.
* A run-time panic of the Go program is the `none` result of a function that
  returns an `Option`.
-/

namespace Forjj

/-! ## Go maps -/

/-- A Go `map[string]V`, as the list of its entries in visiting order. -/
abbrev GoMap (V : Type) := List (String × V)

namespace GoMap

variable {V : Type}

/-- The comma-ok lookup `v, ok := m[k]`. -/
def get : GoMap V → String → Option V
  | [], _ => none
  | (k', v) :: rest, k => if k' = k then some v else get rest k

/-- The assignment `m[k] = v`: replaces the entry of `k`, or adds one. -/
def set : GoMap V → String → V → GoMap V
  | [], k, v => [(k, v)]
  | (k', v') :: rest, k, v => if k' = k then (k', v) :: rest else (k', v') :: set rest k v

/-- The keys of the map, in visiting order. -/
def keys (m : GoMap V) : List String := m.map Prod.fst

end GoMap

/-! ## The reserved pattern `forjj-(.*)` -/

/-- The literal prefix of the reserved pattern. -/
def forjj_literal : List Char := ['f', 'o', 'r', 'j', 'j', '-']

/-- The first submatch of `regexp.Compile("forjj-(.*)")` on a text: the pattern
is not anchored, so the leftmost occurrence of `forjj-` is found, and the greedy
`(.*)` captures what follows it up to the first line break (`.` matches every
character but `\n`). `none` when `forjj-` occurs nowhere. -/
def forjj_submatch : List Char → Option (List Char)
  | [] => none
  | c :: cs =>
    if forjj_literal.isPrefixOf (c :: cs) then
      some (((c :: cs).drop 6).takeWhile (fun x => x != '\n'))
    else forjj_submatch cs

/-- The call `forjj_regexp.FindStringSubmatch(name)`, reduced to what the
callers use of it: `none` for a `nil` result, else `forjj_vars[1]`. -/
def forjj_regexp_FindStringSubmatch (name : String) : Option String :=
  (forjj_submatch name.data).map String.mk

/-- The call `regexp.MatchString("forjj-.*", name)`: the same pattern without
the capture, so it matches exactly when `forjj-` occurs in the name. -/
def forjj_MatchString (name : String) : Bool :=
  (forjj_submatch name.data).isSome

/-! ## Data model -/

/-- `DriverCmdOptionFlag` of `app.go`: the value slot of one flag. -/
structure DriverCmdOptionFlag where
  driver_flag_name : String
  value : String
deriving DecidableEq, Repr

/-- `DriverCmdOptions` of `app.go`: the flags of one command of a driver. -/
structure DriverCmdOptions where
  flags : GoMap DriverCmdOptionFlag
deriving DecidableEq, Repr

/-- The inlined option block of a plugin flag (`goforjj`), the fields read by
`set_flag_options`. -/
structure YamlFlagsOptions where
  Required : Bool
  Default : String
  Secure : Bool
deriving DecidableEq, Repr

/-- A plugin flag declaration (`goforjj.YamlFlags`), the fields read by
`init_driver_flags` and `set_flag_options`. The source reads both
`params.Options.Default` and `params.Default`; both are kept. -/
structure YamlFlags where
  Help : String
  Default : String
  Options : YamlFlagsOptions
deriving DecidableEq, Repr

/-- The decoded plugin document (`goforjj.YamlPlugin`), the fields read here:
its name, its task list, phase tag ↦ option name ↦ declaration, and the
template of the name of its flag file. -/
structure YamlPlugin where
  Name : String
  Tasks : GoMap (GoMap YamlFlags)
  CreatedFile : String := ""
deriving DecidableEq, Repr

/-- The plugin data of a driver (`goforjj.PluginDef`), the fields read here. -/
structure PluginDef where
  Yaml : YamlPlugin
  SourceMount : String
  WorkspaceMount : String
deriving DecidableEq, Repr

/-- `Driver` of `app.go`, the fields the flag code reads or writes. `Runtime`,
a pointer into `plugin.Yaml` that `read_driver` sets, is left out. -/
structure Driver where
  DriverType : String
  InstanceName : String
  Name : String
  cmds : GoMap DriverCmdOptions
  plugin : PluginDef
  app_request : Bool
  FlagFile : String := ""
  ForjjFlagFile : Bool := false
deriving DecidableEq, Repr

/-- A persisted option (`goforjj.PluginOption`): its stored value. -/
structure PluginOption where
  Help : String
  Value : String
deriving DecidableEq, Repr

/-- `DriverOptions` of `app.go`: the persisted options of one instance. -/
structure DriverOptions where
  driver_type : String
  Options : GoMap PluginOption
deriving DecidableEq, Repr

/-- `DriversOptions` of `app.go`: the persisted options of every instance. -/
structure DriversOptions where
  Drivers : GoMap DriverOptions
deriving DecidableEq, Repr

/-- `ActionOpts` of `app.go`, the fields read by `InitializeDriversFlag`: the
command name and the parsed flag values (`map[string]*string`, a `nil` pointer
is `none`). -/
structure ActionOpts where
  name : String
  flagsv : GoMap (Option String)
deriving DecidableEq, Repr

/-- The infra repository record of the workspace. -/
structure InfraRepo where
  Name : String
deriving DecidableEq, Repr

/-- `Workspace`, the fields read by `GetInternalData`. -/
structure Workspace where
  Organization : String
  Infra : InfraRepo
deriving DecidableEq, Repr

/-- What `cli.Opts()` followed by `Required()` and `Default(v)` calls has
recorded: the options handed to the command-line library with a flag. -/
structure ForjOpts where
  required : Bool
  dflt : Option String
deriving DecidableEq, Repr

/-- `cli.Opts()`: no option recorded. -/
def ForjOpts.Opts : ForjOpts := { required := false, dflt := none }

/-- `opts.Required()`. -/
def ForjOpts.Required (o : ForjOpts) : ForjOpts := { o with required := true }

/-- `opts.Default(v)`. -/
def ForjOpts.Default (o : ForjOpts) (v : String) : ForjOpts := { o with dflt := some v }

/-- One request sent to the command-line library while flags are registered:
`a.cli.AddAppFlag(cli.String, name, help, opts)` or
`a.cli.OnActions(command).AddFlag(cli.String, name, help, opts)`. The library is
an external collaborator; the embedding records the requests in order. -/
inductive CliCall where
  | AddAppFlag (name help : String) (opts : Option ForjOpts)
  | AddFlag (command name help : String) (opts : Option ForjOpts)
deriving DecidableEq, Repr

/-- `Forj` of `app.go`, the fields the flag code reads or writes. `cli` is the
list of requests sent so far to the command-line library, oldest first.
`CurrentCommand` is the record behind the pointer, which the flag code
dereferences without test; `flags_loaded` is `none` for the `nil` map;
`o_Drivers` is `a.o.Drivers`, the persisted instances. -/
structure Forj where
  flags_loaded : Option (GoMap String)
  drivers : GoMap Driver
  drivers_options : DriversOptions
  cli : List CliCall
  CurrentCommand : ActionOpts
  CurrentPluginDriver : Option Driver
  w : Workspace
  o_Drivers : GoMap Driver := []
deriving DecidableEq, Repr

/-! ## `GetInternalData` -/

/-- `Forj.GetInternalData` (`app.go`): the value of a forjj internal parameter.
The traces it emits are not part of the result. -/
def GetInternalData (a : Forj) (param : String) : String :=
  if param = "organization" then a.w.Organization
  else if param = "infra" then a.w.Infra.Name
  else if param = "instance-name" then
    match a.CurrentPluginDriver with
    | some d => d.InstanceName
    | none => ""
  else if param = "source-mount" then
    match a.CurrentPluginDriver with
    | some d => d.plugin.SourceMount
    | none => ""
  else if param = "workspace-mount" then
    match a.CurrentPluginDriver with
    | some d => d.plugin.WorkspaceMount
    | none => ""
  else ""

/-! ## `set_flag_options` -/

/-- `DriverOptions.set_flag_options` (`drivers_options.go`): the options of a
new flag. `d` is the receiver (`none` for a `nil` receiver), `params` the plugin
declaration (`none` for `nil`); the result is `none` for a `nil` result. -/
def set_flag_options (d : Option DriverOptions) (option_name : String)
    (params : Option YamlFlags) : Option ForjOpts :=
  match params with
  | none => none
  | some params =>
    let opts := ForjOpts.Opts
    let preloaded : Bool × ForjOpts :=
      match d with
      | some d =>
        match d.Options.get option_name with
        | some option_value =>
          if option_value.Value ≠ "" then
            if params.Options.Secure then (true, opts)
            else (true, opts.Default option_value.Value)
          else (false, opts)
        | none => (false, opts)
      | none => (false, opts)
    let preloaded_data := preloaded.1
    let opts := preloaded.2
    if !preloaded_data then
      let opts := if params.Options.Required then opts.Required else opts
      let opts := if params.Options.Default ≠ "" then opts.Default params.Default else opts
      some opts
    else some opts

/-! ## `InitializeDriversFlag` -/

/-- The value slot that the body of the innermost loop of
`InitializeDriversFlag` computes for `flag_name` from its current slot `f`:
the internal value when the name matches the reserved pattern, else the
command-line value when `flagsv` holds a non-nil one, else `f` unchanged. -/
def InitializeDriversFlag_value (a : Forj) (flag_name : String)
    (f : DriverCmdOptionFlag) : DriverCmdOptionFlag :=
  match forjj_regexp_FindStringSubmatch flag_name with
  | none =>
    match a.CurrentCommand.flagsv.get flag_name with
    | some (some flag_value) => { f with value := flag_value }
    | _ => f
  | some key => { f with value := GetInternalData a key }

/-- One turn of `for flag_name := range driverOpts.cmds[command].flags`:
reads the slot of `flag_name` (the zero value if there is none), computes its
value and stores it back with `flags[flag_name] = f`. -/
def InitializeDriversFlag_flag (a : Forj) (flags : GoMap DriverCmdOptionFlag)
    (flag_name : String) : GoMap DriverCmdOptionFlag :=
  let f := (flags.get flag_name).getD { driver_flag_name := "", value := "" }
  flags.set flag_name (InitializeDriversFlag_value a flag_name f)

/-- One turn of `for _, command := range []string{"common", a.CurrentCommand.name}`
on a driver: a command the driver has no entry for has a `nil` flag map, over
which the loop does not turn. -/
def InitializeDriversFlag_command (a : Forj) (d : Driver) (command : String) : Driver :=
  match d.cmds.get command with
  | none => d
  | some c =>
    let flags := c.flags.keys.foldl (InitializeDriversFlag_flag a) c.flags
    { d with cmds := d.cmds.set command (DriverCmdOptions.mk flags) }

/-- One turn of `for instance_name, driverOpts := range a.drivers`: a driver
whose plugin definition is not loaded is skipped. -/
def InitializeDriversFlag_driver (a : Forj) (driverOpts : Driver) : Driver :=
  if driverOpts.plugin.Yaml.Name = "" then driverOpts
  else ["common", a.CurrentCommand.name].foldl (InitializeDriversFlag_command a) driverOpts

/-- `Forj.InitializeDriversFlag` (`app.go`): gives every flag of the common and
current command of every loaded driver its value. The drivers are updated in
place through their pointers. -/
def InitializeDriversFlag (a : Forj) : Forj :=
  { a with drivers := a.drivers.map (fun e => (e.1, InitializeDriversFlag_driver a e.2)) }

/-- The resolved value of flag `flag_name` of command `command` of instance
`instance_name`: `a.drivers[instance_name].cmds[command].flags[flag_name].value`,
`none` when there is no such slot. -/
def flag_value (a : Forj) (instance_name command flag_name : String) : Option String :=
  match a.drivers.get instance_name with
  | none => none
  | some d =>
    match d.cmds.get command with
    | none => none
    | some c => (c.flags.get flag_name).map (fun f => f.value)

/-- The state `a` with the parsed command-line values replaced by `flagsv`. -/
def with_flagsv (a : Forj) (flagsv : GoMap (Option String)) : Forj :=
  { a with CurrentCommand := { a.CurrentCommand with flagsv := flagsv } }

/-! ## `init_driver_flags` -/

/-- The order `<` of Go on strings, on their characters: the lexicographic
order of the UTF-8 bytes, which is the lexicographic order of the code points. -/
def chars_less : List Char → List Char → Bool
  | _, [] => false
  | [], _ :: _ => true
  | x :: xs, y :: ys =>
    if x.toNat < y.toNat then true
    else if y.toNat < x.toNat then false
    else chars_less xs ys

/-- Insertion of a string into a sorted list. -/
def sort_insert (k : String) : List String → List String
  | [] => [k]
  | x :: xs => if chars_less k.data x.data then k :: x :: xs else x :: sort_insert k xs

/-- `sort.Strings(keys)`: the keys in increasing order. -/
def sort_Strings : List String → List String
  | [] => []
  | k :: ks => sort_insert k (sort_Strings ks)

/-- The assignment `d.cmds[command].flags[name] = f`. When the driver has no
entry for `command`, `d.cmds[command]` is the zero `DriverCmdOptions`, whose
flag map is `nil`, and the assignment panics (`none`). -/
def Driver.set_flag (d : Driver) (command name : String) (f : DriverCmdOptionFlag) :
    Option Driver :=
  match d.cmds.get command with
  | none => none
  | some c => some { d with cmds := d.cmds.set command (DriverCmdOptions.mk (c.flags.set name f)) }

/-- `Driver.init_driver_flags_for` (`drivers_options.go`): with an empty
command the flag is requested at the application layer and nothing is stored
in the driver; else the slot is stored in the driver and the flag requested on
the command. -/
def init_driver_flags_for (d : Driver) (a : Forj)
    (option_name command forjj_option_name forjj_option_help : String)
    (opts : Option ForjOpts) : Option (Forj × Driver) :=
  if command = "" then
    some ({ a with cli := a.cli ++ [CliCall.AddAppFlag forjj_option_name forjj_option_help opts] }, d)
  else
    match d.set_flag command forjj_option_name { driver_flag_name := option_name, value := "" } with
    | none => none
    | some d =>
      some ({ a with cli := a.cli ++
        [CliCall.AddFlag command forjj_option_name forjj_option_help opts] }, d)

/-- One turn of `for _, option_name := range keys` of `init_driver_flags`. -/
def init_driver_flags_option (instance_name : String) (d_opts : DriverOptions)
    (command : String) (flags : GoMap YamlFlags)
    (st : Option (Forj × Driver)) (option_name : String) : Option (Forj × Driver) :=
  match st with
  | none => none
  | some (a, d) =>
    let flag_options := (flags.get option_name).getD
      { Help := "", Default := "", Options := { Required := false, Default := "", Secure := false } }
    if forjj_MatchString option_name then
      match d.set_flag command option_name { driver_flag_name := option_name, value := "" } with
      | none => none
      | some d => some (a, d)
    else
      let forjj_option_name := instance_name ++ "-" ++ option_name
      let flag_opts := set_flag_options (some d_opts) option_name (some flag_options)
      if command = "common" then
        init_driver_flags_for d a option_name "" forjj_option_name flag_options.Help flag_opts
      else
        init_driver_flags_for d a option_name command forjj_option_name flag_options.Help flag_opts

/-- One turn of `for command, flags := range commands` of `init_driver_flags`.
The message printed for an invalid tag changes no state, and the loop goes on
with the tag. -/
def init_driver_flags_command (instance_name : String) (d_opts : DriverOptions)
    (st : Option (Forj × Driver)) (e : String × GoMap YamlFlags) : Option (Forj × Driver) :=
  (sort_Strings e.2.keys).foldl (init_driver_flags_option instance_name d_opts e.1 e.2) st

/-- `Forj.init_driver_flags` (`drivers_options.go`), the task loop: registers
the flags of the tasks of the plugin of `instance_name`. `none` is a run-time
panic: no driver under `instance_name` (nil dereference), or a write to the
`nil` flag map of an unknown phase tag. The loop over the plugin's objects that
follows in the source only declares objects and fields to the command-line
library; it writes neither the drivers nor the flag requests and is left out.
`d_opts` is a copy of the persisted record, the zero record when there is none,
and `set_flag_options` is called on its address. -/
def init_driver_flags (a : Forj) (instance_name : String) : Option Forj :=
  match a.drivers.get instance_name with
  | none => none
  | some d =>
    let commands := d.plugin.Yaml.Tasks
    let d_opts := (a.drivers_options.Drivers.get instance_name).getD
      { driver_type := "", Options := [] }
    match commands.foldl (init_driver_flags_command instance_name d_opts) (some (a, d)) with
    | none => none
    | some (a, d) => some { a with drivers := a.drivers.set instance_name d }

/-! ## `GetDriversActionsParameters` -/

/-- One turn of `for k, v := range pluginOpts.cmds[cmd].flags`, on the pair
(`flags_loaded`, `cmd_args`). `v` is a copy: the driver's slot is not written. -/
def GetDriversActionsParameters_flag (a : Forj) (st : GoMap String × GoMap String)
    (e : String × DriverCmdOptionFlag) : GoMap String × GoMap String :=
  match forjj_regexp_FindStringSubmatch e.1 with
  | none =>
    let v : DriverCmdOptionFlag :=
      match st.1.get e.1 with
      | some v_saved => { e.2 with value := v_saved }
      | none => e.2
    if v.value ≠ "" then (st.1.set e.1 v.value, st.2.set v.driver_flag_name v.value)
    else st
  | some key => (st.1, st.2.set e.1 (GetInternalData a key))

/-- The flags `pluginOpts.cmds[cmd].flags` of a driver; none when the driver
has no entry for `cmd`. -/
def Driver.cmd_flags (d : Driver) (cmd : String) : GoMap DriverCmdOptionFlag :=
  match d.cmds.get cmd with
  | none => []
  | some c => c.flags

/-- `Forj.GetDriversActionsParameters` (`app.go`): fills `cmd_args`, a non-nil
map, with the parameters of command `cmd`; returns the state, whose
`flags_loaded` it updates, and the filled map. -/
def GetDriversActionsParameters (a : Forj) (cmd_args : GoMap String) (cmd : String) :
    Forj × GoMap String :=
  let flags_loaded := a.flags_loaded.getD []
  let st := a.drivers.foldl
    (fun st pluginOpts =>
      (pluginOpts.2.cmd_flags cmd).foldl (GetDriversActionsParameters_flag a) st)
    (flags_loaded, cmd_args)
  ({ a with flags_loaded := some st.1 }, st.2)

/-! ## Loading the drivers: `read_driver`, `load_driver_options`,
`load_missing_drivers`, `GetDriversFlags` -/

/-- The four empty flag sets a driver is created with, the map literal of
`load_missing_drivers` and `GetDriversFlags`. -/
def empty_cmds : GoMap DriverCmdOptions :=
  [("common", { flags := [] }), ("create", { flags := [] }),
   ("update", { flags := [] }), ("maintain", { flags := [] })]

/-- The external collaborators of `read_driver`, taken as parameters:
`read_document_from` fetches the document of a driver type and driver name
under the contribution repository (`none` is a fetch error),
`PluginDefLoad` decodes a document (`none` is a decode error), and `template`
parses a flag-file template and executes it on the model of the driver, its
instance name and name (`none` is a parse error). -/
structure Collaborators where
  read_document_from : String → String → Option String
  PluginDefLoad : String → Option YamlPlugin
  template : String → String → String → Option String

/-- The errors that `read_driver` returns. -/
inductive LoadError where
  | fetch
  | decode
  | template
deriving DecidableEq, Repr

/-- `Forj.read_driver` (`drivers_options.go`): loads the plugin document of an
instance into its driver. The result is the state and the error returned
(`none` for `nil`); no result (`none`) is the panic of the nil dereference when
the instance has no driver. After a decode error the plugin data is taken as
unchanged. -/
def read_driver (c : Collaborators) (a : Forj) (instance_name : String) :
    Option (Forj × Option LoadError) :=
  match a.drivers.get instance_name with
  | none => none
  | some driver =>
    if driver.Name = "" then some (a, none)
    else
      match c.read_document_from driver.DriverType driver.Name with
      | none => some (a, some LoadError.fetch)
      | some yaml_data =>
        match c.PluginDefLoad yaml_data with
        | none => some (a, some LoadError.decode)
        | some yaml =>
          let driver := { driver with plugin := { driver.plugin with Yaml := yaml } }
          let ff := if yaml.CreatedFile = "" then "." ++ driver.InstanceName ++ ".created"
            else yaml.CreatedFile
          let driver := if yaml.CreatedFile = "" then { driver with ForjjFlagFile := true }
            else driver
          match c.template ff driver.InstanceName driver.Name with
          | none =>
            some ({ a with drivers := a.drivers.set instance_name driver },
              some LoadError.template)
          | some doc =>
            some ({ a with drivers := a.drivers.set instance_name { driver with FlagFile := doc } },
              none)

/-- `Forj.load_driver_options` (`drivers_options.go`): reads the driver and,
when its plugin definition is loaded, registers its flags. -/
def load_driver_options (c : Collaborators) (a : Forj) (instance_name : String) :
    Option (Forj × Option LoadError) :=
  match read_driver c a instance_name with
  | none => none
  | some (a, some err) => some (a, some err)
  | some (a, none) =>
    match a.drivers.get instance_name with
    | none => none
    | some d =>
      if d.plugin.Yaml.Name ≠ "" then
        (init_driver_flags a instance_name).map (fun a => (a, none))
      else some (a, none)

/-- One turn of `for instance, d := range a.o.Drivers` of `load_missing_drivers`:
an instance that has no driver yet gets the persisted one, with four empty
flag sets, and its options are loaded; an error is logged and the loop goes
on. The paths set in the plugin after a successful load are not part of the
model. The driver record is shared with `a.o.Drivers`; the model follows it
in `a.drivers`. -/
def load_missing_drivers_instance (c : Collaborators) (st : Option Forj)
    (e : String × Driver) : Option Forj :=
  match st with
  | none => none
  | some a =>
    match a.drivers.get e.1 with
    | some _ => some a
    | none =>
      let d : Driver := { e.2 with cmds := empty_cmds }
      match load_driver_options c { a with drivers := a.drivers.set e.1 d } e.1 with
      | none => none
      | some (a, _) => some a

/-- `Forj.load_missing_drivers` (`drivers_options.go`): loads the persisted
instances that are not registered. When it returns, the error it returns is
`nil`: the result is the state alone, `none` being a panic. -/
def load_missing_drivers (c : Collaborators) (a : Forj) : Option Forj :=
  a.o_Drivers.foldl (load_missing_drivers_instance c) (some a)

/-- One application given on the command line: what `d.GetString("driver")`,
`d.GetString("type")` and `d.GetString("name")` return for it. -/
structure AppRequest where
  driver : String
  driver_type : String
  name : String
deriving DecidableEq, Repr

/-- How a call that may stop the program ends: it returns a state, calls
`os.Exit` with a status, or panics. -/
inductive Outcome where
  | returned (a : Forj)
  | exited (status : Nat)
  | panicked
deriving DecidableEq, Repr

/-- The literal `&Driver{...}` of `GetDriversFlags`: the driver created for a
request, with four empty flag sets and no plugin definition. -/
def requested_driver (d : AppRequest) : Driver :=
  { Name := d.driver, DriverType := d.driver_type, InstanceName := d.name,
    app_request := true, cmds := empty_cmds,
    plugin := { Yaml := { Name := "", Tasks := [] }, SourceMount := "", WorkspaceMount := "" } }

/-- One turn of `for _, d := range list` of `GetDriversFlags`: a fresh driver
replaces whatever `a.drivers` holds under the instance name, and its options
are loaded; a load error ends the program with `os.Exit(1)`. -/
def GetDriversFlags_request (c : Collaborators) (st : Outcome) (d : AppRequest) : Outcome :=
  match st with
  | Outcome.returned a =>
    if d.driver = "" ∨ d.driver_type = "" then Outcome.returned a
    else
      let driver : Driver := requested_driver d
      match load_driver_options c { a with drivers := a.drivers.set d.name driver } d.name with
      | none => Outcome.panicked
      | some (_, some _) => Outcome.exited 1
      | some (a, none) => Outcome.returned a
  | st => st

/-- `Forj.GetDriversFlags` (`drivers_options.go`): loads the drivers of the
applications `list` given on the command line, then the persisted ones. When
it returns, the error it returns is `nil`. -/
def GetDriversFlags (c : Collaborators) (a : Forj) (list : List AppRequest) : Outcome :=
  match list.foldl (GetDriversFlags_request c) (Outcome.returned a) with
  | Outcome.returned a =>
    match load_missing_drivers c a with
    | none => Outcome.panicked
    | some a => Outcome.returned a
  | st => st

/-! ## `ParseContext`: the organization and the infra repository name -/

/-- What the collaborators of `ParseContext` answer while the names are set:
the organization of the Forjfile (`a.f.Forj.Settings.Organization`), value and
found mark of `c.GetStringValue(workspace, "", orga_f)`, value, found mark and
default mark of `c.GetStringValue(infra, "", infra_upstream_f)`, and the value
that the latter call returns once the default of the flag is set to a text. -/
structure CliValues where
  Settings_Organization : String
  orga : String × Bool
  infra : String × Bool × Bool
  infra_with_default : String → String

/-- The block `Set organization name to use` of `Forj.ParseContext`
(`cli_context.go`): an organization that is not set is taken from the Forjfile,
then from the command line. The error mark of the workspace and the update of
the Forjfile are not part of the model. -/
def ParseContext_organization (w : Workspace) (c : CliValues) : Workspace :=
  if w.Organization = "" then
    let w : Workspace :=
      if c.Settings_Organization ≠ "" then { w with Organization := c.Settings_Organization }
      else w
    if c.orga.2 = true ∧ c.orga.1 ≠ "" then { w with Organization := c.orga.1 } else w
  else w

/-- The block `Setting infra repository name` of `Forj.ParseContext`
(`cli_context.go`). -/
def ParseContext_infra (w : Workspace) (c : CliValues) : Workspace :=
  if c.infra.2.1 = true then
    let f : String :=
      if c.infra.2.2 = true ∧ w.Organization ≠ "" then
        c.infra_with_default (w.Organization ++ "-infra")
      else c.infra.1
    if w.Infra.Name = "" then { w with Infra := { Name := f } } else w
  else
    if w.Organization ≠ "" then { w with Infra := { Name := w.Organization ++ "-infra" } }
    else w

/-- The part of `Forj.ParseContext` (`cli_context.go`) that sets the
organization and the infra repository name of the workspace, on the workspace
as `setWorkspace`, `Load` and `LoadForge` have left it. -/
def ParseContext_names (w : Workspace) (c : CliValues) : Workspace :=
  ParseContext_infra (ParseContext_organization w c) c

/-! ## Example states -/

/-- A plugin flag declaration with the given option block. -/
def mk_flag (required : Bool) (dflt : String) (secure : Bool) : YamlFlags :=
  { Help := "", Default := dflt,
    Options := { Required := required, Default := dflt, Secure := secure } }

/-- A freshly created driver of type `upstream` whose plugin `github` is loaded
with the given task list. -/
def mk_driver (instance_name : String) (tasks : GoMap (GoMap YamlFlags)) : Driver :=
  { DriverType := "upstream", InstanceName := instance_name, Name := "github",
    cmds := empty_cmds,
    plugin := { Yaml := { Name := "github", Tasks := tasks },
                SourceMount := "/src", WorkspaceMount := "/ws" },
    app_request := true }

/-- A state of organization `myorg` with the given drivers, persisted options
and current command, before any flag is registered. -/
def mk_forj (drivers : GoMap Driver) (persisted : GoMap DriverOptions)
    (command : ActionOpts) : Forj :=
  { flags_loaded := none, drivers := drivers, drivers_options := { Drivers := persisted },
    cli := [], CurrentCommand := command, CurrentPluginDriver := none,
    w := { Organization := "myorg", Infra := { Name := "myorg-infra" } } }

/-! ## Auxiliary definitions and example states for the properties -/

/-- The slot `d.cmds[command].flags[name]` of a driver. -/
def Driver.flag (d : Driver) (command name : String) : Option DriverCmdOptionFlag :=
  match d.cmds.get command with
  | none => none
  | some c => c.flags.get name

/-- A state whose current plugin driver is `git1`, of organization `myorg`. -/
def forj_in_plugin : Forj :=
  { mk_forj [] [] { name := "create", flagsv := [] } with
    CurrentPluginDriver := some (mk_driver "git1" []) }

/-- Whether the persisted record holds a non-empty value for the option, the
test `found && option_value.Value != ""` of `set_flag_options`. -/
def has_persisted (d : Option DriverOptions) (option_name : String) : Bool :=
  match d with
  | none => false
  | some d =>
    match d.Options.get option_name with
    | none => false
    | some option_value => option_value.Value ≠ ""

/-- The state in which instance `instance_name`, whose plugin declares the one
option `token` in phase `create`, has been registered by `init_driver_flags`,
with the persisted value `abc` for `token` and the parsed command line
`flagsv` for the command `create`; `none` if the registration panics. -/
def registered_token (instance_name : String) (secure : Bool)
    (flagsv : GoMap (Option String)) : Option Forj :=
  init_driver_flags
    (mk_forj [(instance_name, mk_driver instance_name
        [("create", [("token", mk_flag false "" secure)])])]
      [(instance_name, { driver_type := "upstream", Options := [("token", ⟨"", "abc"⟩)] })]
      { name := "create", flagsv := flagsv })
    instance_name

/-- The value of flag `flag_name` of command `create` of `instance_name` after
the registration of `registered_token` and `InitializeDriversFlag`. -/
def resolved_token (instance_name : String) (secure : Bool)
    (flagsv : GoMap (Option String)) (flag_name : String) : Option (Option String) :=
  (registered_token instance_name secure flagsv).map
    (fun a => flag_value (InitializeDriversFlag a) instance_name "create" flag_name)

/-- The driver `git1` after the registration of its option `url` of phase
`create`. -/
def driver_git1_url : Driver :=
  { mk_driver "git1" [("create", [("url", mk_flag false "" false)])] with
    cmds := [("common", { flags := [] }),
             ("create", { flags := [("git1-url", { driver_flag_name := "url", value := "" })] }),
             ("update", { flags := [] }), ("maintain", { flags := [] })] }

/-- The state of the driver `driver_git1_url`, with the persisted value `abc`
for its option `url`, for the command `create`. -/
def forj_git1_url : Forj :=
  mk_forj [("git1", driver_git1_url)]
    [("git1", { driver_type := "upstream", Options := [("url", ⟨"", "abc"⟩)] })]
    { name := "create", flagsv := [] }

/-- The driver `git1` after the registration of the reserved option
`forjj-organization` that its plugin declares in phase `create`. -/
def driver_git1_reserved : Driver :=
  { mk_driver "git1" [("create", [("forjj-organization", mk_flag false "" false)])] with
    cmds := [("common", { flags := [] }),
             ("create", { flags := [("forjj-organization",
                { driver_flag_name := "forjj-organization", value := "" })] }),
             ("update", { flags := [] }), ("maintain", { flags := [] })] }

/-- The state of the driver `driver_git1_reserved`, for the command `create`. -/
def forj_git1_reserved : Forj :=
  mk_forj [("git1", driver_git1_reserved)] [] { name := "create", flagsv := [] }

/-- The registration state `t` is reached from `s` by sending the requests `l`
to the command-line library and writing flag slots of the driver: no flag set
and no slot of the driver is lost. -/
def reg_extends (s t : Forj × Driver) (l : List CliCall) : Prop :=
  t.1 = { s.1 with cli := s.1.cli ++ l } ∧
  (∀ c, (s.2.cmds.get c).isSome → (t.2.cmds.get c).isSome) ∧
  (∀ c n, (s.2.flag c n).isSome → (t.2.flag c n).isSome)

/-- What the registration of the option `o` of phase `command` of instance `i`
leaves in the state `t` once the requests `l` are sent, when the option is not
reserved and the phase is not `common`: a slot under the composed name in the
flag set of the phase, and a request for the composed name on the phase. -/
def registered (i command o : String) (t : Forj × Driver) (l : List CliCall) : Prop :=
  forjj_MatchString o = false → command ≠ "common" → command ≠ "" →
    (t.2.flag command (i ++ "-" ++ o)).isSome ∧
    ∃ help opts, CliCall.AddFlag command (i ++ "-" ++ o) help opts ∈ l

/-- Two instances `a` and `a-b` whose plugins declare the options `b-c` and
`c` in phase `create`: both compose the flag name `a-b-c`. -/
def forj_same_name : Forj :=
  mk_forj
    [("a", mk_driver "a" [("create", [("b-c", mk_flag false "" false)])]),
     ("a-b", mk_driver "a-b" [("create", [("c", mk_flag false "" false)])])]
    [] { name := "create", flagsv := [] }

/-- What a state holds of the flag `a-b-c` of phase `create`: the requests
made to the command-line library, the slot of instance `a` and the slot of
instance `a-b`. -/
def same_name_view (s : Forj) :
    List CliCall × Option DriverCmdOptionFlag × Option DriverCmdOptionFlag :=
  (s.cli,
   (s.drivers.get "a").bind (fun d => d.flag "create" "a-b-c"),
   (s.drivers.get "a-b").bind (fun d => d.flag "create" "a-b-c"))

/-- The flags that `GetDriversActionsParameters` visits for command `cmd`, in
visiting order: the flags of `cmd` of each driver in turn. -/
def visited_flags : GoMap Driver → String → List (String × DriverCmdOptionFlag)
  | [], _ => []
  | e :: rest, cmd => e.2.cmd_flags cmd ++ visited_flags rest cmd

/-- The key of `cmd_args` that the loop body of `GetDriversActionsParameters`
writes for a flag: the flag name when it matches the reserved pattern, else
the plugin-facing name. -/
def written_name (e : String × DriverCmdOptionFlag) : String :=
  match forjj_regexp_FindStringSubmatch e.1 with
  | none => e.2.driver_flag_name
  | some _ => e.1

/-- The loops of `GetDriversActionsParameters` as one loop over the visited
flags, from the cache and the map of `st`. -/
def assemble (a : Forj) (cmd : String) (st : GoMap String × GoMap String) :
    GoMap String × GoMap String :=
  (visited_flags a.drivers cmd).foldl (GetDriversActionsParameters_flag a) st

/-- The state after registration and resolution, for the command `create`, of
instance `git1`, whose plugin declares the options `debug` and
`forjj-organization` in phase `common` and `token` in phase `create`; the
command line holds `true` for `--git1-debug` and `xyz` for `--git1-token`. -/
def resolved_common : Option Forj :=
  (init_driver_flags
    (mk_forj
      [("git1", mk_driver "git1"
        [("common", [("debug", mk_flag false "" false),
                     ("forjj-organization", mk_flag false "" false)]),
         ("create", [("token", mk_flag false "" false)])])]
      []
      { name := "create",
        flagsv := [("git1-debug", some "true"), ("git1-token", some "xyz")] })
    "git1").map InitializeDriversFlag

/-- A driver `git1` with the resolved flag `forjj-organization` in phase
`common` and the resolved flag `git1-token` in phase `create`. -/
def driver_git1_resolved : Driver :=
  { mk_driver "git1" [] with
    cmds := [("common", { flags := [("forjj-organization",
                { driver_flag_name := "forjj-organization", value := "myorg" })] }),
             ("create", { flags := [("git1-token",
                { driver_flag_name := "token", value := "xyz" })] }),
             ("update", { flags := [] }),
             ("maintain", { flags := [("git1-token",
                { driver_flag_name := "token", value := "" }),
                ("git1-key", { driver_flag_name := "key", value := "k" })] })] }

/-- The state of the single driver `driver_git1_resolved`. -/
def forj_git1_resolved : Forj :=
  mk_forj [("git1", driver_git1_resolved)] [] { name := "create", flagsv := [] }

/-- The driver with its common-phase flag set emptied. -/
def without_common (d : Driver) : Driver :=
  { d with cmds := d.cmds.set "common" { flags := [] } }

/-- The state after registration and resolution, for the command `create`, of
instance `git1`, whose plugin declares the option `token` both in phase `create`
and in phase `maintain`; the command line of `create` holds `xyz` for
`--git1-token`. -/
def resolved_two_phases : Option Forj :=
  (init_driver_flags
    (mk_forj
      [("git1", mk_driver "git1"
        [("create", [("token", mk_flag false "" false)]),
         ("maintain", [("token", mk_flag false "" false)])])]
      []
      { name := "create", flagsv := [("git1-token", some "xyz")] })
    "git1").map InitializeDriversFlag

/-- The state of the single instance `git1`, freshly created, whose plugin
declares the option `force` under the custom phase tag `delete` and the option
`token` under `create`. -/
def forj_custom_tag : Forj :=
  mk_forj
    [("git1", mk_driver "git1"
      [("create", [("token", mk_flag false "" false)]),
       ("delete", [("force", mk_flag false "" false)])])]
    [] { name := "create", flagsv := [] }

/-- The same with the reserved option `forjj-instance-name` under the custom
tag, visited first. -/
def forj_custom_tag_reserved : Forj :=
  mk_forj
    [("git1", mk_driver "git1"
      [("delete", [("forjj-instance-name", mk_flag false "" false)]),
       ("create", [("token", mk_flag false "" false)])])]
    [] { name := "create", flagsv := [] }

/-- The answers of the command line in a run where neither the organization
flag nor the infra flag is found, the Forjfile naming the organization `myorg`. -/
def cli_nothing_found : CliValues :=
  { Settings_Organization := "myorg", orga := ("", false), infra := ("", false, false),
    infra_with_default := fun d => d }

/-- The answers of the command line in a run where the infra flag is found
with the value `other-infra`, given by the user. -/
def cli_infra_found : CliValues :=
  { Settings_Organization := "myorg", orga := ("", false),
    infra := ("other-infra", true, false), infra_with_default := fun d => d }

/-- The registration state `t` comes from `s` by requests sent to the
command-line library and writes of flag slots alone: the driver differs by
its flag sets only, and a phase tag without flag set in `s` has none in `t`. -/
def reg_step (s t : Forj × Driver) : Prop :=
  (∃ l, t.1 = { s.1 with cli := s.1.cli ++ l }) ∧
  (∃ cmds, t.2 = { s.2 with cmds := cmds }) ∧
  (∀ tag, s.2.cmds.get tag = none → t.2.cmds.get tag = none)

/-- A schema source for the examples. The document of driver `broken` cannot
be fetched; the documents of `upstream/github`, `ci/jenkins` and `upstream/odd`
decode to plugins that declare `token` in phase `create`, `url` in phase
`maintain`, and `force` under the custom phase tag `delete`; any other document
fails to decode. Every flag-file template parses and is rendered as it is. -/
def example_collaborators : Collaborators :=
  { read_document_from := fun driver_type name =>
      if name = "broken" then none else some (driver_type ++ "/" ++ name),
    PluginDefLoad := fun doc =>
      if doc = "upstream/github" then
        some { Name := "github", Tasks := [("create", [("token", mk_flag false "" false)])] }
      else if doc = "ci/jenkins" then
        some { Name := "jenkins", Tasks := [("maintain", [("url", mk_flag false "" false)])] }
      else if doc = "upstream/odd" then
        some { Name := "odd", Tasks := [("delete", [("force", mk_flag false "" false)])] }
      else none,
    template := fun text _ _ => some text }

/-- A persisted driver, as read from the options of the infra repository:
its identity, no flag set and no plugin definition yet. -/
def persisted_driver (name driver_type instance_name : String) : Driver :=
  { DriverType := driver_type, InstanceName := instance_name, Name := name, cmds := [],
    plugin := { Yaml := { Name := "", Tasks := [] }, SourceMount := "", WorkspaceMount := "" },
    app_request := false }

/-- A state with no driver loaded and the given persisted instances. -/
def forj_persisted (persisted : GoMap Driver) : Forj :=
  { mk_forj [] [] { name := "create", flagsv := [] } with o_Drivers := persisted }

/-- What a state holds of one driver: instance name, driver name, driver type,
name of the loaded plugin and names of the flags of all its phases. -/
structure DriverView where
  instance_name : String
  name : String
  driver_type : String
  plugin_name : String
  flags : List String
deriving DecidableEq, Repr

/-- What a state holds of each driver. -/
def loaded_view (s : Forj) : List DriverView :=
  s.drivers.map (fun e =>
    { instance_name := e.1, name := e.2.Name, driver_type := e.2.DriverType,
      plugin_name := e.2.plugin.Yaml.Name,
      flags := (e.2.cmds.map (fun x => x.2.flags.keys)).flatten })

/-- The view of the state that a call returns; `none` when it does not return. -/
def returned_view (o : Outcome) : Option (List DriverView) :=
  match o with
  | Outcome.returned s => some (loaded_view s)
  | _ => none

/-- A state in which the instance `git1` is registered with the driver
`github` of type `upstream`, and `ci1` is a persisted instance. -/
def forj_git1_registered : Forj :=
  { forj_persisted [("ci1", persisted_driver "jenkins" "ci" "ci1")] with
    drivers := [("git1", driver_git1_resolved)] }

/-- The state after registration and resolution, for the command `create` and
outside any plugin context, of instance `git1`, whose plugin declares in phase
`create` the reserved options `forjj-instance-name` and `forjj-password` and the
option `token`, for which the command line holds no value. -/
def resolved_reserved_empty : Option Forj :=
  (init_driver_flags
    (mk_forj
      [("git1", mk_driver "git1"
        [("create", [("forjj-instance-name", mk_flag false "" false),
                     ("forjj-password", mk_flag false "" false),
                     ("token", mk_flag false "" false)])])]
      []
      { name := "create", flagsv := [] })
    "git1").map InitializeDriversFlag

/-- A state of the single driver `git1`, outside any plugin context, running
`maintain` after `create`: the phase `maintain` has the reserved flag
`forjj-password` and the flags `git1-token` and `git1-key`, all of empty value,
and the cache holds `xyz` for `git1-token`. -/
def forj_cached_token : Forj :=
  { flags_loaded := some [("git1-token", "xyz")],
    drivers :=
      [("git1", { mk_driver "git1" [] with
          cmds := [("common", { flags := [] }), ("create", { flags := [] }),
                   ("update", { flags := [] }),
                   ("maintain", { flags := [("forjj-password",
                                    { driver_flag_name := "forjj-password", value := "" }),
                                  ("git1-token", { driver_flag_name := "token", value := "" }),
                                  ("git1-key", { driver_flag_name := "key", value := "" })] })] })],
    drivers_options := { Drivers := [] },
    cli := [], CurrentCommand := { name := "maintain", flagsv := [] },
    CurrentPluginDriver := none,
    w := { Organization := "myorg", Infra := { Name := "myorg-infra" } } }

/-- The value that the loop body of `GetDriversActionsParameters` gives a flag
outside the reserved pattern: the one that the cache holds for its name, else
its own. -/
def effective (flags_loaded : GoMap String) (e : String × DriverCmdOptionFlag) : String :=
  match flags_loaded.get e.1 with
  | some v_saved => v_saved
  | none => e.2.value

/-- The entry of `cmd_args` that the loop body of `GetDriversActionsParameters`
writes for a flag, given the cache; `none` when it writes nothing. -/
def entry_written (a : Forj) (flags_loaded : GoMap String)
    (e : String × DriverCmdOptionFlag) : Option (String × String) :=
  match forjj_regexp_FindStringSubmatch e.1 with
  | none =>
    if effective flags_loaded e ≠ "" then
      some (e.2.driver_flag_name, effective flags_loaded e)
    else none
  | some key => some (e.1, GetInternalData a key)

/-- A driver with the four flag sets, the one of `create` holding the flag
`flag_name` of plugin-facing name `option_name` and value `value`. -/
def driver_with_flag (instance_name flag_name option_name value : String) : Driver :=
  { mk_driver instance_name [] with
    cmds := [("common", { flags := [] }),
             ("create", { flags := [(flag_name,
                { driver_flag_name := option_name, value := value })] }),
             ("update", { flags := [] }), ("maintain", { flags := [] })] }

/-- Two instances `a` and `a-b` whose flags of phase `create` have the same
composed name `a-b-c`, the first with an empty value, the second with the
value `x`. -/
def forj_same_flag_name : Forj :=
  mk_forj [("a", driver_with_flag "a" "a-b-c" "b-c" ""),
           ("a-b", driver_with_flag "a-b" "a-b-c" "c" "x")]
    [] { name := "create", flagsv := [] }

/-- Two instances `git1` and `git2` that both declare the option `token` in phase
`create`, resolved to `x` for `git1` and to `y` for `git2`. -/
def forj_two_instances : Forj :=
  mk_forj [("git1", driver_with_flag "git1" "git1-token" "token" "x"),
           ("git2", driver_with_flag "git2" "git2-token" "token" "y")]
    [] { name := "create", flagsv := [] }

/-- The state with its drivers visited in the reverse order. -/
def reverse_drivers (a : Forj) : Forj :=
  { a with drivers := a.drivers.reverse }

/-- Two instances with distinct flag names and distinct plugin-facing names in
phase `create`. -/
def forj_distinct_flags : Forj :=
  mk_forj [("git1", driver_with_flag "git1" "git1-token" "token" "x"),
           ("ci1", driver_with_flag "ci1" "ci1-url" "url" "y")]
    [] { name := "create", flagsv := [] }

/-- A state of the single driver `git1` whose phase `create` has the flag
`git1-token` of value `xyz` and whose phase `maintain` has the reserved flag
`forjj-organization` and the flag `git1-key` of value `k`: no flag name outside
the reserved pattern is in both phases. -/
def forj_disjoint_phases : Forj :=
  mk_forj
    [("git1", { mk_driver "git1" [] with
        cmds := [("common", { flags := [] }),
                 ("create", { flags := [("git1-token",
                                { driver_flag_name := "token", value := "xyz" })] }),
                 ("update", { flags := [] }),
                 ("maintain", { flags := [("forjj-organization",
                                  { driver_flag_name := "forjj-organization", value := "" }),
                                ("git1-key", { driver_flag_name := "key", value := "k" })] })] })]
    [] { name := "create", flagsv := [] }

/-! ## Lemmas on Go maps -/

namespace GoMap

variable {V : Type}

theorem get_set_self (m : GoMap V) (k : String) (v : V) : (m.set k v).get k = some v := by
  induction m with
  | nil => simp [set, get]
  | cons e rest ih =>
    obtain ⟨k', v'⟩ := e
    by_cases h : k' = k
    · simp [set, get, h]
    · simp [set, get, h, ih]

theorem get_set_ne (m : GoMap V) (k k' : String) (v : V) (h : k ≠ k') :
    (m.set k v).get k' = m.get k' := by
  induction m with
  | nil => simp [set, get, h]
  | cons e rest ih =>
    obtain ⟨k₀, v₀⟩ := e
    by_cases h₀ : k₀ = k
    · subst h₀
      simp [set, get, h]
    · by_cases h₁ : k₀ = k'
      · subst h₁
        simp [set, get, h₀]
      · simp [set, get, h₀, h₁, ih]

theorem set_set (m : GoMap V) (k : String) (v v' : V) : (m.set k v).set k v' = m.set k v' := by
  induction m with
  | nil => simp [set]
  | cons e rest ih =>
    obtain ⟨k₀, v₀⟩ := e
    by_cases h : k₀ = k
    · simp [set, h]
    · simp [set, h, ih]

theorem get_set (m : GoMap V) (k k' : String) (v : V) :
    (m.set k v).get k' = if k = k' then some v else m.get k' := by
  by_cases h : k = k'
  · subst h
    simp [get_set_self]
  · simp [h, get_set_ne m k k' v h]

theorem get_eq_none_iff (m : GoMap V) (k : String) : m.get k = none ↔ k ∉ m.keys := by
  induction m with
  | nil => simp [get, keys]
  | cons e rest ih =>
    obtain ⟨k', v'⟩ := e
    by_cases h : k' = k
    · simp [get, keys, h]
    · have h' : ¬ k = k' := fun hh => h hh.symm
      simpa [get, keys, h, h'] using ih

theorem get_map_snd {W : Type} (m : GoMap V) (g : V → W) (k : String) :
    GoMap.get (m.map (fun e => (e.1, g e.2))) k = (m.get k).map g := by
  induction m with
  | nil => simp [get]
  | cons e rest ih =>
    obtain ⟨k', v'⟩ := e
    by_cases h : k' = k
    · simp [get, h]
    · simp [get, h, ih]

theorem mem_of_get {m : GoMap V} {k : String} {v : V} (h : m.get k = some v) :
    (k, v) ∈ m := by
  induction m with
  | nil => simp [get] at h
  | cons e rest ih =>
    obtain ⟨k', v'⟩ := e
    by_cases hk : k' = k
    · simp [get, hk] at h
      simp [hk, h]
    · simp [get, hk] at h
      exact List.mem_cons_of_mem _ (ih h)

end GoMap

/-! ## Lemmas on `InitializeDriversFlag` -/

theorem GetInternalData_congr (a b : Forj) (hw : a.w = b.w)
    (hp : a.CurrentPluginDriver = b.CurrentPluginDriver) (param : String) :
    GetInternalData a param = GetInternalData b param := by
  simp [GetInternalData, hw, hp]

theorem InitializeDriversFlag_value_idem (a : Forj) (name : String) (f : DriverCmdOptionFlag) :
    InitializeDriversFlag_value a name (InitializeDriversFlag_value a name f) =
      InitializeDriversFlag_value a name f := by
  unfold InitializeDriversFlag_value
  rcases forjj_regexp_FindStringSubmatch name with _ | key
  · rcases a.CurrentCommand.flagsv.get name with _ | _ | v <;> simp
  · simp

theorem InitializeDriversFlag_flags_get (a : Forj) (ks : List String)
    (m : GoMap DriverCmdOptionFlag) (name : String) :
    (ks.foldl (InitializeDriversFlag_flag a) m).get name =
      if name ∈ ks then
        some (InitializeDriversFlag_value a name
          ((m.get name).getD { driver_flag_name := "", value := "" }))
      else m.get name := by
  induction ks generalizing m with
  | nil => simp
  | cons k ks ih =>
    rw [List.foldl_cons, ih]
    by_cases hk : name = k
    · subst hk
      simp [InitializeDriversFlag_flag, GoMap.get_set_self, InitializeDriversFlag_value_idem]
    · have hk' : k ≠ name := fun h => hk h.symm
      simp [InitializeDriversFlag_flag, GoMap.get_set_ne _ _ _ _ hk', hk]

theorem InitializeDriversFlag_command_flag (a : Forj) (d : Driver) (command cmd name : String) :
    (InitializeDriversFlag_command a d command).flag cmd name =
      if cmd = command then (d.flag cmd name).map (InitializeDriversFlag_value a name)
      else d.flag cmd name := by
  unfold InitializeDriversFlag_command
  rcases hc : d.cmds.get command with _ | c
  · by_cases h : cmd = command
    · subst h
      simp [Driver.flag, hc]
    · simp [h]
  · by_cases h : cmd = command
    · subst h
      simp only [Driver.flag, GoMap.get_set_self, hc, if_true, InitializeDriversFlag_flags_get]
      rcases hg : c.flags.get name with _ | f
      · have := (GoMap.get_eq_none_iff c.flags name).1 hg
        simp [this]
      · have hmem : name ∈ c.flags.keys := by
          by_contra hn
          rw [← GoMap.get_eq_none_iff, hg] at hn
          exact Option.noConfusion hn
        simp [hmem]
    · have h' : command ≠ cmd := fun hh => h hh.symm
      simp [Driver.flag, GoMap.get_set_ne _ _ _ _ h', h]

theorem InitializeDriversFlag_command_plugin (a : Forj) (d : Driver) (command : String) :
    (InitializeDriversFlag_command a d command).plugin = d.plugin := by
  unfold InitializeDriversFlag_command
  rcases d.cmds.get command with _ | c <;> rfl

theorem InitializeDriversFlag_driver_flag (a : Forj) (d : Driver) (cmd name : String)
    (hloaded : d.plugin.Yaml.Name ≠ "")
    (hcmd : cmd = "common" ∨ cmd = a.CurrentCommand.name) :
    (InitializeDriversFlag_driver a d).flag cmd name =
      (d.flag cmd name).map (InitializeDriversFlag_value a name) := by
  simp only [InitializeDriversFlag_driver, hloaded, if_false, List.foldl_cons, List.foldl_nil,
    InitializeDriversFlag_command_flag]
  rcases hf : d.flag cmd name with _ | f
  · simp
  · rcases hcmd with h | h
    · subst h
      by_cases h2 : "common" = a.CurrentCommand.name
      · simp [hf, ← h2, InitializeDriversFlag_value_idem]
      · simp [hf, h2]
    · subst h
      by_cases h2 : a.CurrentCommand.name = "common"
      · simp [hf, h2, InitializeDriversFlag_value_idem]
      · simp [hf, h2]

/-- The resolved value of a flag after `InitializeDriversFlag`: for a loaded
driver and a flag of the common or current command whose slot was `f`, it is
the value computed by the loop body from `f`. -/
theorem InitializeDriversFlag_flag_value (a : Forj) (instance_name cmd name : String)
    (d : Driver) (f : DriverCmdOptionFlag)
    (hd : a.drivers.get instance_name = some d)
    (hloaded : d.plugin.Yaml.Name ≠ "")
    (hcmd : cmd = "common" ∨ cmd = a.CurrentCommand.name)
    (hf : d.flag cmd name = some f) :
    flag_value (InitializeDriversFlag a) instance_name cmd name =
      some (InitializeDriversFlag_value a name f).value := by
  have h1 := InitializeDriversFlag_driver_flag a d cmd name hloaded hcmd
  rw [hf] at h1
  simp only [flag_value, InitializeDriversFlag, GoMap.get_map_snd, hd, Option.map_some']
  simp only [Driver.flag] at h1
  rcases hc : (InitializeDriversFlag_driver a d).cmds.get cmd with _ | c
  · simp [hc] at h1
  · simp [hc] at h1
    simp [h1]

/-! ## Properties of `GetInternalData` -/

/-- C4: with a current plugin driver set, `GetInternalData` is the fixed table:
`organization` gives the workspace organization, `infra` the infra repository
name, `instance-name` the instance name of the current driver, `source-mount`
and `workspace-mount` the mount paths of its plugin, and every other key gives
the empty string. The function is total: no key makes it fail. -/
theorem GetInternalData_table (a : Forj) (d : Driver) (h : a.CurrentPluginDriver = some d) :
    GetInternalData a "organization" = a.w.Organization ∧
    GetInternalData a "infra" = a.w.Infra.Name ∧
    GetInternalData a "instance-name" = d.InstanceName ∧
    GetInternalData a "source-mount" = d.plugin.SourceMount ∧
    GetInternalData a "workspace-mount" = d.plugin.WorkspaceMount ∧
    ∀ key : String, key ≠ "organization" → key ≠ "infra" → key ≠ "instance-name" →
      key ≠ "source-mount" → key ≠ "workspace-mount" → GetInternalData a key = "" := by
  refine ⟨?_, ?_, ?_, ?_, ?_, ?_⟩
  · simp [GetInternalData]
  · simp [GetInternalData]
  · simp [GetInternalData, h]
  · simp [GetInternalData, h]
  · simp [GetInternalData, h]
  · intro key h1 h2 h3 h4 h5
    simp [GetInternalData, h1, h2, h3, h4, h5]

/-- C4 at a concrete state: the five recognised keys and the unknown keys
`password` and `Organization`. -/
theorem GetInternalData_table_witness :
    GetInternalData forj_in_plugin "organization" = "myorg" ∧
    GetInternalData forj_in_plugin "infra" = "myorg-infra" ∧
    GetInternalData forj_in_plugin "instance-name" = "git1" ∧
    GetInternalData forj_in_plugin "source-mount" = "/src" ∧
    GetInternalData forj_in_plugin "workspace-mount" = "/ws" ∧
    GetInternalData forj_in_plugin "password" = "" ∧
    GetInternalData forj_in_plugin "Organization" = "" :=
  have t := GetInternalData_table forj_in_plugin (mk_driver "git1" []) rfl
  ⟨t.1, t.2.1, t.2.2.1, t.2.2.2.1, t.2.2.2.2.1,
   t.2.2.2.2.2 "password" (by decide) (by decide) (by decide) (by decide) (by decide),
   t.2.2.2.2.2 "Organization" (by decide) (by decide) (by decide) (by decide) (by decide)⟩

/-! ## Properties of `set_flag_options` -/

/-- C5: for an option marked secure that has a non-empty persisted value, the
options returned by `set_flag_options` carry no default (and no required mark):
the persisted value is not set as the visible default. -/
theorem set_flag_options_secure_persisted (d : DriverOptions) (option_name : String)
    (params : YamlFlags) (option_value : PluginOption)
    (hfound : d.Options.get option_name = some option_value)
    (hvalue : option_value.Value ≠ "")
    (hsecure : params.Options.Secure = true) :
    set_flag_options (some d) option_name (some params) =
      some { required := false, dflt := none } := by
  simp [set_flag_options, hfound, hvalue, hsecure, ForjOpts.Opts]

/-- C5 for the secure option `token` with persisted value `abc`, whose schema
declares it required with default `changeme`. -/
theorem set_flag_options_secure_persisted_witness :
    set_flag_options (some { driver_type := "upstream", Options := [("token", ⟨"", "abc"⟩)] })
      "token" (some (mk_flag true "changeme" true)) =
      some { required := false, dflt := none } :=
  set_flag_options_secure_persisted
    { driver_type := "upstream", Options := [("token", ⟨"", "abc"⟩)] } "token"
    (mk_flag true "changeme" true) ⟨"", "abc"⟩ (by decide) (by decide) rfl

/-- C6 (refuted as stated): a secure option with no persisted value whose schema
declares the default `changeme` gets `changeme` as its default. -/
theorem set_flag_options_secure_schema_default :
    set_flag_options (some { driver_type := "upstream", Options := [] })
      "token" (some (mk_flag false "changeme" true)) =
      some { required := false, dflt := some "changeme" } := by
  decide

/-- C6 (amended): for an option marked secure, the options returned by
`set_flag_options` carry no default when the option has a non-empty persisted
value or when the schema's `Options.Default` is empty; with no persisted value
and a non-empty `Options.Default` they carry the schema's `Default`. -/
theorem set_flag_options_secure_default (d : Option DriverOptions) (option_name : String)
    (params : YamlFlags) (hsecure : params.Options.Secure = true) :
    ∃ opts, set_flag_options d option_name (some params) = some opts ∧
      opts.dflt =
        if has_persisted d option_name = true ∨ params.Options.Default = "" then none
        else some params.Default := by
  rcases d with _ | d
  · by_cases hd : params.Options.Default = "" <;>
      by_cases hr : params.Options.Required = true <;>
      simp [set_flag_options, has_persisted, hd, hr, ForjOpts.Opts, ForjOpts.Default,
        ForjOpts.Required]
  · rcases hg : d.Options.get option_name with _ | ov
    · by_cases hd : params.Options.Default = "" <;>
        by_cases hr : params.Options.Required = true <;>
        simp [set_flag_options, has_persisted, hg, hd, hr, ForjOpts.Opts, ForjOpts.Default,
          ForjOpts.Required]
    · by_cases hv : ov.Value = ""
      · by_cases hd : params.Options.Default = "" <;>
          by_cases hr : params.Options.Required = true <;>
          simp [set_flag_options, has_persisted, hg, hv, hd, hr, ForjOpts.Opts,
            ForjOpts.Default, ForjOpts.Required]
      · simp [set_flag_options, has_persisted, hg, hv, hsecure, ForjOpts.Opts]

/-- C6 (amended) for the secure option `token` with schema default `changeme`
and the persisted value `abc`. -/
theorem set_flag_options_secure_default_witness :
    ∃ opts, set_flag_options (some { driver_type := "upstream", Options := [("token", ⟨"", "abc"⟩)] })
        "token" (some (mk_flag false "changeme" true)) = some opts ∧
      opts.dflt =
        if has_persisted (some { driver_type := "upstream", Options := [("token", ⟨"", "abc"⟩)] })
            "token" = true ∨ (mk_flag false "changeme" true).Options.Default = "" then none
        else some (mk_flag false "changeme" true).Default :=
  set_flag_options_secure_default
    (some { driver_type := "upstream", Options := [("token", ⟨"", "abc"⟩)] }) "token"
    (mk_flag false "changeme" true) rfl

/-- C7 (refuted as stated): the option `url`, not secure, with the persisted
value `abc`, gets `abc` as its default. -/
theorem set_flag_options_persisted_default :
    set_flag_options (some { driver_type := "upstream", Options := [("url", ⟨"", "abc"⟩)] })
      "url" (some (mk_flag true "changeme" false)) =
      some { required := false, dflt := some "abc" } := by
  decide

/-- C7 (amended): for an option that has a non-empty persisted value, the
options returned by `set_flag_options` are never marked required and never
carry the schema's default, whatever the schema's required mark and default
are: they carry no default when the option is secure, and the persisted value
as default when it is not. -/
theorem set_flag_options_persisted (d : DriverOptions) (option_name : String)
    (params : YamlFlags) (option_value : PluginOption)
    (hfound : d.Options.get option_name = some option_value)
    (hvalue : option_value.Value ≠ "") :
    set_flag_options (some d) option_name (some params) =
      some { required := false,
             dflt := if params.Options.Secure = true then none else some option_value.Value } := by
  by_cases hs : params.Options.Secure = true <;>
    simp [set_flag_options, hfound, hvalue, hs, ForjOpts.Opts, ForjOpts.Default]

/-- C7 (amended) for the option `url`, required with default `changeme` in the
schema, not secure, with the persisted value `abc`. -/
theorem set_flag_options_persisted_witness :
    set_flag_options (some { driver_type := "upstream", Options := [("url", ⟨"", "abc"⟩)] })
      "url" (some (mk_flag true "changeme" false)) =
      some { required := false,
             dflt := if (mk_flag true "changeme" false).Options.Secure = true then none
                     else some (PluginOption.mk "" "abc").Value } :=
  set_flag_options_persisted
    { driver_type := "upstream", Options := [("url", ⟨"", "abc"⟩)] } "url"
    (mk_flag true "changeme" false) ⟨"", "abc"⟩ (by decide) (by decide)

/-! ## Properties of `InitializeDriversFlag` -/

/-- On a name `forjj-<key>` whose key has no line break, the reserved pattern
captures the key itself. -/
theorem forjj_regexp_FindStringSubmatch_key (key : String)
    (hkey : ∀ c ∈ key.data, c ≠ '\n') :
    forjj_regexp_FindStringSubmatch ("forjj-" ++ key) = some key := by
  have h1 : ("forjj-" ++ key).data = 'f' :: 'o' :: 'r' :: 'j' :: 'j' :: '-' :: key.data := by
    simp [String.data_append]
  have h2 : List.takeWhile (fun x => x != '\n') key.data = key.data := by
    rw [List.takeWhile_eq_self_iff]
    intro c hc
    simpa using hkey c hc
  simp [forjj_regexp_FindStringSubmatch, h1, forjj_submatch, forjj_literal, h2]

/-- A flag whose name does not match the reserved pattern and for which the
parsed command line holds the value `v` is resolved to `v`. -/
theorem InitializeDriversFlag_explicit_value (a : Forj) (instance_name cmd name v : String)
    (d : Driver) (f : DriverCmdOptionFlag)
    (hd : a.drivers.get instance_name = some d)
    (hloaded : d.plugin.Yaml.Name ≠ "")
    (hcmd : cmd = "common" ∨ cmd = a.CurrentCommand.name)
    (hf : d.flag cmd name = some f)
    (hname : forjj_regexp_FindStringSubmatch name = none)
    (hv : a.CurrentCommand.flagsv.get name = some (some v)) :
    flag_value (InitializeDriversFlag a) instance_name cmd name = some v := by
  rw [InitializeDriversFlag_flag_value a instance_name cmd name d f hd hloaded hcmd hf]
  simp [InitializeDriversFlag_value, hname, hv]

/-- C1 (the code at the failing input): for instance `git1`, option `token`,
persisted `abc`, the command-line value `xyz` of `--git1-token` is the resolved
value; for the instance named `forjj` the composed flag `forjj-token`, which
`init_driver_flags` has requested from the command-line library like any other
option, matches the reserved pattern in `InitializeDriversFlag`, and its
command-line value `xyz` is replaced by the internal value of the unknown key
`token`, the empty string. -/
theorem InitializeDriversFlag_instance_forjj :
    resolved_token "git1" false [("git1-token", some "xyz")] "git1-token" = some (some "xyz") ∧
    forjj_MatchString "token" = false ∧
    (registered_token "forjj" false [("forjj-token", some "xyz")]).map (fun a => a.cli) =
      some [CliCall.AddFlag "create" "forjj-token" ""
        (some { required := false, dflt := some "abc" })] ∧
    resolved_token "forjj" false [("forjj-token", some "xyz")] "forjj-token" = some (some "") := by
  decide

/-- C2 (refuted as stated): the secure option `token` of instance `git1` has the
persisted value `abc`; it is registered without a default, and with no value
on the command line (no entry for `git1-token`, a nil entry, or the empty
string of a flag left unset) its resolved value is empty, not `abc`. -/
theorem InitializeDriversFlag_secure_persisted_lost :
    (registered_token "git1" true []).map (fun a => a.cli) =
      some [CliCall.AddFlag "create" "git1-token" ""
        (some { required := false, dflt := none })] ∧
    resolved_token "git1" true [] "git1-token" = some (some "") ∧
    resolved_token "git1" true [("git1-token", none)] "git1-token" = some (some "") ∧
    resolved_token "git1" true [("git1-token", some "")] "git1-token" = some (some "") := by
  decide

/-- C2 (amended): for a loaded driver instance and an option that is not
secure, whose composed flag name does not match the reserved pattern and that
has a non-empty persisted value, the persisted value is handed at registration
to the command-line library as the default of the flag, and the resolved value
of the composed flag is the value that the parsed command line holds for it
(the persisted value, when the library hands the default back for a flag left
unset); `InitializeDriversFlag` reads the parsed command line only, and where
that holds no value (no entry, or a nil one) it leaves the slot as it was. -/
theorem InitializeDriversFlag_persisted (a : Forj) (flagsv : GoMap (Option String))
    (instance_name option_name cmd : String)
    (d : Driver) (f : DriverCmdOptionFlag) (d_opts : DriverOptions)
    (option_value : PluginOption) (params : YamlFlags)
    (hd : a.drivers.get instance_name = some d)
    (hloaded : d.plugin.Yaml.Name ≠ "")
    (hcmd : cmd = "common" ∨ cmd = a.CurrentCommand.name)
    (hf : d.flag cmd (instance_name ++ "-" ++ option_name) = some f)
    (hname : forjj_regexp_FindStringSubmatch (instance_name ++ "-" ++ option_name) = none)
    (hopts : a.drivers_options.Drivers.get instance_name = some d_opts)
    (hfound : d_opts.Options.get option_name = some option_value)
    (hvalue : option_value.Value ≠ "")
    (hsecure : params.Options.Secure = false) :
    set_flag_options (a.drivers_options.Drivers.get instance_name) option_name (some params) =
      some { required := false, dflt := some option_value.Value } ∧
    flag_value (InitializeDriversFlag (with_flagsv a flagsv)) instance_name cmd
        (instance_name ++ "-" ++ option_name) =
      some (match flagsv.get (instance_name ++ "-" ++ option_name) with
            | some (some v) => v
            | _ => f.value) := by
  constructor
  · simp [set_flag_options, hopts, hfound, hvalue, hsecure, ForjOpts.Opts, ForjOpts.Default]
  · rw [InitializeDriversFlag_flag_value (with_flagsv a flagsv) instance_name cmd _ d f
      hd hloaded hcmd hf]
    simp only [InitializeDriversFlag_value, hname, with_flagsv]
    rcases flagsv.get (instance_name ++ "-" ++ option_name) with _ | _ | v <;> rfl

/-- C2 (amended) for instance `git1`, option `url`, persisted value `abc`, the
parsed command line holding the default `abc` for `--git1-url`. -/
theorem InitializeDriversFlag_persisted_witness :
    set_flag_options (forj_git1_url.drivers_options.Drivers.get "git1") "url"
        (some (mk_flag false "" false)) =
      some { required := false, dflt := some "abc" } ∧
    flag_value (InitializeDriversFlag (with_flagsv forj_git1_url [("git1-url", some "abc")]))
        "git1" "create" ("git1" ++ "-" ++ "url") =
      some "abc" :=
  InitializeDriversFlag_persisted forj_git1_url [("git1-url", some "abc")] "git1" "url" "create"
    driver_git1_url { driver_flag_name := "url", value := "" }
    { driver_type := "upstream", Options := [("url", ⟨"", "abc"⟩)] }
    ⟨"", "abc"⟩ (mk_flag false "" false)
    (by decide) (by decide) (Or.inr rfl) (by decide) (by decide) (by decide) (by decide)
    (by decide) rfl

/-- C3: for a loaded driver and a flag of the common or current command whose
name matches the reserved pattern `forjj-<key>` (`key` is the text the pattern
captures; for a name `forjj-<key>` without line break that is the text after
`forjj-`), the value stored by `InitializeDriversFlag` is the internal-context
value of `key`, and it is the same for any two command-line value maps, also
for maps that hold a value under that flag name. -/
theorem InitializeDriversFlag_reserved (a : Forj) (flagsv₁ flagsv₂ : GoMap (Option String))
    (instance_name cmd name key : String) (d : Driver) (f : DriverCmdOptionFlag)
    (hd : a.drivers.get instance_name = some d)
    (hloaded : d.plugin.Yaml.Name ≠ "")
    (hcmd : cmd = "common" ∨ cmd = a.CurrentCommand.name)
    (hf : d.flag cmd name = some f)
    (hkey : forjj_regexp_FindStringSubmatch name = some key) :
    flag_value (InitializeDriversFlag (with_flagsv a flagsv₁)) instance_name cmd name =
      some (GetInternalData a key) ∧
    flag_value (InitializeDriversFlag (with_flagsv a flagsv₂)) instance_name cmd name =
      flag_value (InitializeDriversFlag (with_flagsv a flagsv₁)) instance_name cmd name := by
  have key_value : ∀ flagsv : GoMap (Option String),
      flag_value (InitializeDriversFlag (with_flagsv a flagsv)) instance_name cmd name =
        some (GetInternalData a key) := by
    intro flagsv
    rw [InitializeDriversFlag_flag_value (with_flagsv a flagsv) instance_name cmd name d f
      hd hloaded hcmd hf]
    simp only [InitializeDriversFlag_value, hkey]
    exact congrArg some (GetInternalData_congr _ _ rfl rfl key)
  exact ⟨key_value flagsv₁, (key_value flagsv₂).trans (key_value flagsv₁).symm⟩

/-- C3 for option `forjj-organization` of instance `git1`: with the
command-line value `evil` under that flag name, and with an empty command
line, the stored value is the organization `myorg`. -/
theorem InitializeDriversFlag_reserved_witness :
    flag_value (InitializeDriversFlag
        (with_flagsv forj_git1_reserved [("forjj-organization", some "evil")]))
      "git1" "create" "forjj-organization" = some "myorg" ∧
    flag_value (InitializeDriversFlag (with_flagsv forj_git1_reserved []))
      "git1" "create" "forjj-organization" =
    flag_value (InitializeDriversFlag
        (with_flagsv forj_git1_reserved [("forjj-organization", some "evil")]))
      "git1" "create" "forjj-organization" :=
  InitializeDriversFlag_reserved forj_git1_reserved [("forjj-organization", some "evil")] []
    "git1" "create" "forjj-organization" "organization" driver_git1_reserved
    { driver_flag_name := "forjj-organization", value := "" }
    (by decide) (by decide) (Or.inr rfl) (by decide) (by decide)

/-! ## Properties of `init_driver_flags` -/

theorem reg_extends_refl (s : Forj × Driver) : reg_extends s s [] := by
  refine ⟨?_, fun _ h => h, fun _ _ h => h⟩
  simp

theorem reg_extends_trans {s t u : Forj × Driver} {l l' : List CliCall}
    (h₁ : reg_extends s t l) (h₂ : reg_extends t u l') : reg_extends s u (l ++ l') := by
  refine ⟨?_, fun c h => h₂.2.1 c (h₁.2.1 c h), fun c n h => h₂.2.2 c n (h₁.2.2 c n h)⟩
  rw [h₂.1, h₁.1]
  simp [List.append_assoc]

theorem registered_mono {i command o : String} {t u : Forj × Driver} {l l' : List CliCall}
    (h : registered i command o t l) (hext : reg_extends t u l') :
    registered i command o u (l ++ l') := by
  intro h1 h2 h3
  obtain ⟨hflag, help, opts, hmem⟩ := h h1 h2 h3
  exact ⟨hext.2.2 _ _ hflag, help, opts, List.mem_append_left _ hmem⟩

theorem registered_later {i command o : String} {u : Forj × Driver} {l l' : List CliCall}
    (h : registered i command o u l') : registered i command o u (l ++ l') := by
  intro h1 h2 h3
  obtain ⟨hflag, help, opts, hmem⟩ := h h1 h2 h3
  exact ⟨hflag, help, opts, List.mem_append_right _ hmem⟩

/-- The write `d.cmds[c].flags[n] = f` on a driver that has a flag set for `c`
succeeds, stores the slot and loses no flag set and no slot. -/
theorem Driver.set_flag_isSome (d : Driver) (c n : String) (f : DriverCmdOptionFlag)
    (h : (d.cmds.get c).isSome) :
    ∃ d', d.set_flag c n f = some d' ∧
      (∀ c', (d.cmds.get c').isSome → (d'.cmds.get c').isSome) ∧
      (∀ c' n', (d.flag c' n').isSome → (d'.flag c' n').isSome) ∧
      (d'.flag c n).isSome := by
  obtain ⟨x, hx⟩ := Option.isSome_iff_exists.1 h
  refine ⟨{ d with cmds := d.cmds.set c (DriverCmdOptions.mk (x.flags.set n f)) },
    by simp only [Driver.set_flag, hx], ?_, ?_, ?_⟩
  · intro c' hc'
    by_cases hcc : c = c'
    · simp [GoMap.get_set, hcc]
    · simpa [GoMap.get_set, hcc] using hc'
  · intro c' n' hf
    by_cases hcc : c = c'
    · subst hcc
      by_cases hnn : n = n'
      · simp [Driver.flag, GoMap.get_set, hnn]
      · simpa [Driver.flag, GoMap.get_set, hnn, hx] using hf
    · simpa [Driver.flag, GoMap.get_set, hcc] using hf
  · simp [Driver.flag, GoMap.get_set]

/-- One option of a phase that the driver has a flag set for is registered
without panic. -/
theorem init_driver_flags_option_ok (i : String) (d_opts : DriverOptions) (command : String)
    (flags : GoMap YamlFlags) (a : Forj) (d : Driver) (o : String)
    (hc : (d.cmds.get command).isSome) :
    ∃ t l, init_driver_flags_option i d_opts command flags (some (a, d)) o = some t ∧
      reg_extends (a, d) t l ∧ registered i command o t l := by
  unfold init_driver_flags_option
  dsimp only
  generalize (flags.get o).getD _ = flag_options
  by_cases hr : forjj_MatchString o = true
  · obtain ⟨d', hd', h1, h2, _⟩ := Driver.set_flag_isSome d command o
      { driver_flag_name := o, value := "" } hc
    refine ⟨(a, d'), [], ?_, ⟨by simp, h1, h2⟩, ?_⟩
    · simp [hr, hd']
    · intro h
      simp [hr] at h
  · by_cases hcommon : command = "common"
    · refine ⟨({ a with cli := a.cli ++ [CliCall.AddAppFlag (i ++ "-" ++ o) flag_options.Help
          (set_flag_options (some d_opts) o (some flag_options))] }, d), _, ?_,
        ⟨rfl, fun _ h => h, fun _ _ h => h⟩, ?_⟩
      · simp [hr, hcommon, init_driver_flags_for]
      · intro _ h
        exact absurd hcommon h
    · by_cases hempty : command = ""
      · refine ⟨({ a with cli := a.cli ++ [CliCall.AddAppFlag (i ++ "-" ++ o) flag_options.Help
            (set_flag_options (some d_opts) o (some flag_options))] }, d), _, ?_,
          ⟨rfl, fun _ h => h, fun _ _ h => h⟩, ?_⟩
        · simp [hr, hcommon, init_driver_flags_for, hempty]
        · intro _ _ h
          exact absurd hempty h
      · obtain ⟨d', hd', h1, h2, h3⟩ := Driver.set_flag_isSome d command (i ++ "-" ++ o)
          { driver_flag_name := o, value := "" } hc
        refine ⟨({ a with cli := a.cli ++ [CliCall.AddFlag command (i ++ "-" ++ o)
            flag_options.Help (set_flag_options (some d_opts) o (some flag_options))] }, d'), _,
          ?_, ⟨rfl, h1, h2⟩, ?_⟩
        · simp [hr, hcommon, init_driver_flags_for, hempty, hd']
        · intro _ _ _
          exact ⟨h3, _, _, List.mem_singleton.2 rfl⟩

/-- The options of a phase that the driver has a flag set for are registered
without panic, whatever their number and order. -/
theorem init_driver_flags_options_ok (i : String) (d_opts : DriverOptions) (command : String)
    (flags : GoMap YamlFlags) (ks : List String) (s : Forj × Driver)
    (hc : (s.2.cmds.get command).isSome) :
    ∃ t l, ks.foldl (init_driver_flags_option i d_opts command flags) (some s) = some t ∧
      reg_extends s t l ∧ ∀ o ∈ ks, registered i command o t l := by
  induction ks generalizing s with
  | nil => exact ⟨s, [], rfl, reg_extends_refl s, fun _ h => absurd h (List.not_mem_nil _)⟩
  | cons k ks ih =>
    obtain ⟨t₁, l₁, e₁, x₁, r₁⟩ :=
      init_driver_flags_option_ok i d_opts command flags s.1 s.2 k hc
    obtain ⟨t, l, e, x, r⟩ := ih t₁ (x₁.2.1 command hc)
    refine ⟨t, l₁ ++ l, ?_, reg_extends_trans x₁ x, ?_⟩
    · rw [List.foldl_cons, e₁, e]
    · intro o ho
      rcases List.mem_cons.1 ho with h | h
      · subst h
        exact registered_mono r₁ x
      · exact registered_later (r o h)

theorem mem_sort_insert (k x : String) (l : List String) :
    x ∈ sort_insert k l ↔ x = k ∨ x ∈ l := by
  induction l with
  | nil => simp [sort_insert]
  | cons y ys ih =>
    unfold sort_insert
    split
    · simp
    · simp only [List.mem_cons, ih]
      tauto

theorem mem_sort_Strings (x : String) (l : List String) : x ∈ sort_Strings l ↔ x ∈ l := by
  induction l with
  | nil => simp [sort_Strings]
  | cons y ys ih => simp [sort_Strings, mem_sort_insert, ih]

/-- The tasks of a plugin whose phase tags all have a flag set in the driver
are registered without panic. -/
theorem init_driver_flags_commands_ok (i : String) (d_opts : DriverOptions)
    (tasks : GoMap (GoMap YamlFlags)) (s : Forj × Driver)
    (hvalid : ∀ e ∈ tasks, (s.2.cmds.get e.1).isSome) :
    ∃ t l, tasks.foldl (init_driver_flags_command i d_opts) (some s) = some t ∧
      reg_extends s t l ∧ ∀ e ∈ tasks, ∀ o ∈ e.2.keys, registered i e.1 o t l := by
  induction tasks generalizing s with
  | nil => exact ⟨s, [], rfl, reg_extends_refl s, fun _ h => absurd h (List.not_mem_nil _)⟩
  | cons e tasks ih =>
    obtain ⟨t₁, l₁, e₁, x₁, r₁⟩ := init_driver_flags_options_ok i d_opts e.1 e.2
      (sort_Strings e.2.keys) s (hvalid e (List.mem_cons_self _ _))
    obtain ⟨t, l, e₂, x, r⟩ := ih t₁
      (fun e' he' => x₁.2.1 e'.1 (hvalid e' (List.mem_cons_of_mem _ he')))
    refine ⟨t, l₁ ++ l, ?_, reg_extends_trans x₁ x, ?_⟩
    · rw [List.foldl_cons]
      simp only [init_driver_flags_command] at e₁ e₂ ⊢
      rw [e₁, e₂]
    · intro e' he' o ho
      rcases List.mem_cons.1 he' with h | h
      · subst h
        exact registered_mono (r₁ o ((mem_sort_Strings o _).2 ho)) x
      · exact registered_later (r e' h o ho)

/-- The registration of an instance whose driver has a flag set for every
phase tag of its plugin returns a state: the requests `l` are added to those
sent before, the driver of the instance is replaced by one that holds a slot
for every option outside the reserved pattern of every phase other than
`common`, a request for which is among `l`, and nothing else is changed. -/
theorem init_driver_flags_ok (a : Forj) (i : String) (d : Driver)
    (hd : a.drivers.get i = some d)
    (hvalid : ∀ e ∈ d.plugin.Yaml.Tasks, (d.cmds.get e.1).isSome) :
    ∃ d' l, init_driver_flags a i =
        some { a with cli := a.cli ++ l, drivers := a.drivers.set i d' } ∧
      ∀ e ∈ d.plugin.Yaml.Tasks, ∀ o ∈ e.2.keys, registered i e.1 o (a, d') l := by
  obtain ⟨t, l, e, x, r⟩ := init_driver_flags_commands_ok i
    ((a.drivers_options.Drivers.get i).getD { driver_type := "", Options := [] })
    d.plugin.Yaml.Tasks (a, d) hvalid
  refine ⟨t.2, l, ?_, ?_⟩
  · simp only [init_driver_flags, hd, e]
    rw [x.1]
  · intro e' he' o ho h1 h2 h3
    exact r e' he' o ho h1 h2 h3

/-- C8 (refuted as stated): registering (`a`, `b-c`) and (`a-b`, `c`), in either
order, fails with no error: both registrations return a state, the flag `a-b-c`
has been requested twice from the command-line library, and each instance
holds its own slot under that name. -/
theorem init_driver_flags_same_name_accepted :
    ((init_driver_flags forj_same_name "a").bind (fun s => init_driver_flags s "a-b")).map
        same_name_view =
      some ([CliCall.AddFlag "create" "a-b-c" "" (some { required := false, dflt := none }),
             CliCall.AddFlag "create" "a-b-c" "" (some { required := false, dflt := none })],
            some { driver_flag_name := "b-c", value := "" },
            some { driver_flag_name := "c", value := "" }) ∧
    ((init_driver_flags forj_same_name "a-b").bind (fun s => init_driver_flags s "a")).map
        same_name_view =
      some ([CliCall.AddFlag "create" "a-b-c" "" (some { required := false, dflt := none }),
             CliCall.AddFlag "create" "a-b-c" "" (some { required := false, dflt := none })],
            some { driver_flag_name := "b-c", value := "" },
            some { driver_flag_name := "c", value := "" }) := by
  decide

/-- C8 (amended): for two distinct (instance, option) pairs with the same
composed name, the options being declared outside the reserved pattern in a
phase other than `common` by the plugins of two instances whose drivers have a
flag set for every phase tag of their plugin, registering the first instance
and then the second (whichever of the two is taken as first) returns no error:
both registrations return a state, each sends to the command-line library a
request for the flag under the same composed name, the second leaves the
driver of the first as the first registration made it, and each driver holds
a slot under the composed name in its own flag set, so the earlier
registration is not overwritten. -/
theorem init_driver_flags_same_name (a : Forj) (i₁ i₂ o₁ o₂ cmd : String)
    (d₁ d₂ : Driver) (flags₁ flags₂ : GoMap YamlFlags)
    (hne : i₁ ≠ i₂)
    (hname : i₁ ++ "-" ++ o₁ = i₂ ++ "-" ++ o₂)
    (hd₁ : a.drivers.get i₁ = some d₁) (hd₂ : a.drivers.get i₂ = some d₂)
    (hvalid₁ : ∀ e ∈ d₁.plugin.Yaml.Tasks, (d₁.cmds.get e.1).isSome)
    (hvalid₂ : ∀ e ∈ d₂.plugin.Yaml.Tasks, (d₂.cmds.get e.1).isSome)
    (ht₁ : (cmd, flags₁) ∈ d₁.plugin.Yaml.Tasks) (ho₁ : o₁ ∈ flags₁.keys)
    (ht₂ : (cmd, flags₂) ∈ d₂.plugin.Yaml.Tasks) (ho₂ : o₂ ∈ flags₂.keys)
    (hcommon : cmd ≠ "common") (hcmd : cmd ≠ "")
    (hr₁ : forjj_MatchString o₁ = false) (hr₂ : forjj_MatchString o₂ = false) :
    ∃ s₁ s₂ l₁ l₂ help₁ opts₁ help₂ opts₂,
      init_driver_flags a i₁ = some s₁ ∧ init_driver_flags s₁ i₂ = some s₂ ∧
      s₁.cli = a.cli ++ l₁ ∧ s₂.cli = s₁.cli ++ l₂ ∧
      CliCall.AddFlag cmd (i₁ ++ "-" ++ o₁) help₁ opts₁ ∈ l₁ ∧
      CliCall.AddFlag cmd (i₁ ++ "-" ++ o₁) help₂ opts₂ ∈ l₂ ∧
      s₂.drivers.get i₁ = s₁.drivers.get i₁ ∧
      ((s₂.drivers.get i₁).bind (fun d => d.flag cmd (i₁ ++ "-" ++ o₁))).isSome ∧
      ((s₂.drivers.get i₂).bind (fun d => d.flag cmd (i₁ ++ "-" ++ o₁))).isSome := by
  have hne' : i₂ ≠ i₁ := fun h => hne h.symm
  obtain ⟨d₁', l₁, e₁, r₁⟩ := init_driver_flags_ok a i₁ d₁ hd₁ hvalid₁
  have hd₂' : (Forj.drivers { a with cli := a.cli ++ l₁, drivers := a.drivers.set i₁ d₁' }).get i₂ =
      some d₂ := by
    simp [GoMap.get_set_ne _ _ _ _ hne, hd₂]
  obtain ⟨d₂', l₂, e₂, r₂⟩ := init_driver_flags_ok _ i₂ d₂ hd₂' hvalid₂
  obtain ⟨f₁, help₁, opts₁, m₁⟩ := r₁ _ ht₁ o₁ ho₁ hr₁ hcommon hcmd
  obtain ⟨f₂, help₂, opts₂, m₂⟩ := r₂ _ ht₂ o₂ ho₂ hr₂ hcommon hcmd
  refine ⟨_, _, l₁, l₂, help₁, opts₁, help₂, opts₂, e₁, e₂, rfl, rfl, m₁, ?_, ?_, ?_, ?_⟩
  · rw [hname]
    exact m₂
  · simp [GoMap.get_set_ne _ _ _ _ hne']
  · simpa [GoMap.get_set_ne _ _ _ _ hne', GoMap.get_set_self] using f₁
  · rw [hname]
    simpa [GoMap.get_set_self] using f₂

/-- C8 (amended) for the pairs (`a`, `b-c`) and (`a-b`, `c`), in both orders. -/
theorem init_driver_flags_same_name_witness :
    (∃ s₁ s₂ l₁ l₂ help₁ opts₁ help₂ opts₂,
      init_driver_flags forj_same_name "a" = some s₁ ∧ init_driver_flags s₁ "a-b" = some s₂ ∧
      s₁.cli = forj_same_name.cli ++ l₁ ∧ s₂.cli = s₁.cli ++ l₂ ∧
      CliCall.AddFlag "create" ("a" ++ "-" ++ "b-c") help₁ opts₁ ∈ l₁ ∧
      CliCall.AddFlag "create" ("a" ++ "-" ++ "b-c") help₂ opts₂ ∈ l₂ ∧
      s₂.drivers.get "a" = s₁.drivers.get "a" ∧
      ((s₂.drivers.get "a").bind (fun d => d.flag "create" ("a" ++ "-" ++ "b-c"))).isSome ∧
      ((s₂.drivers.get "a-b").bind (fun d => d.flag "create" ("a" ++ "-" ++ "b-c"))).isSome) ∧
    (∃ s₁ s₂ l₁ l₂ help₁ opts₁ help₂ opts₂,
      init_driver_flags forj_same_name "a-b" = some s₁ ∧ init_driver_flags s₁ "a" = some s₂ ∧
      s₁.cli = forj_same_name.cli ++ l₁ ∧ s₂.cli = s₁.cli ++ l₂ ∧
      CliCall.AddFlag "create" ("a-b" ++ "-" ++ "c") help₁ opts₁ ∈ l₁ ∧
      CliCall.AddFlag "create" ("a-b" ++ "-" ++ "c") help₂ opts₂ ∈ l₂ ∧
      s₂.drivers.get "a-b" = s₁.drivers.get "a-b" ∧
      ((s₂.drivers.get "a-b").bind (fun d => d.flag "create" ("a-b" ++ "-" ++ "c"))).isSome ∧
      ((s₂.drivers.get "a").bind (fun d => d.flag "create" ("a-b" ++ "-" ++ "c"))).isSome) :=
  ⟨init_driver_flags_same_name forj_same_name "a" "a-b" "b-c" "c" "create"
      (mk_driver "a" [("create", [("b-c", mk_flag false "" false)])])
      (mk_driver "a-b" [("create", [("c", mk_flag false "" false)])])
      [("b-c", mk_flag false "" false)] [("c", mk_flag false "" false)]
      (by decide) (by decide) (by decide) (by decide) (by decide) (by decide)
      (by decide) (by decide) (by decide) (by decide) (by decide) (by decide)
      (by decide) (by decide),
   init_driver_flags_same_name forj_same_name "a-b" "a" "c" "b-c" "create"
      (mk_driver "a-b" [("create", [("c", mk_flag false "" false)])])
      (mk_driver "a" [("create", [("b-c", mk_flag false "" false)])])
      [("c", mk_flag false "" false)] [("b-c", mk_flag false "" false)]
      (by decide) (by decide) (by decide) (by decide) (by decide) (by decide)
      (by decide) (by decide) (by decide) (by decide) (by decide) (by decide)
      (by decide) (by decide)⟩

/-! ## Lemmas on `GetDriversActionsParameters` -/

theorem mem_visited_flags {drivers : GoMap Driver} {cmd : String} {i : String} {d : Driver}
    {e : String × DriverCmdOptionFlag} (hd : (i, d) ∈ drivers) (he : e ∈ d.cmd_flags cmd) :
    e ∈ visited_flags drivers cmd := by
  induction drivers with
  | nil => simp at hd
  | cons x rest ih =>
    rcases List.mem_cons.1 hd with h | h
    · subst h
      simp [visited_flags, he]
    · simp [visited_flags, ih h]

theorem visited_flags_map (drivers : GoMap Driver) (cmd : String) (g : Driver → Driver)
    (hg : ∀ d, (g d).cmd_flags cmd = d.cmd_flags cmd) :
    visited_flags (drivers.map (fun e => (e.1, g e.2))) cmd = visited_flags drivers cmd := by
  induction drivers with
  | nil => rfl
  | cons x rest ih => simp [visited_flags, hg, ih]

theorem foldl_visited_flags (a : Forj) (drivers : GoMap Driver) (cmd : String)
    (st : GoMap String × GoMap String) :
    drivers.foldl
      (fun st pluginOpts =>
        (pluginOpts.2.cmd_flags cmd).foldl (GetDriversActionsParameters_flag a) st) st =
    (visited_flags drivers cmd).foldl (GetDriversActionsParameters_flag a) st := by
  induction drivers generalizing st with
  | nil => rfl
  | cons x rest ih => simp [visited_flags, List.foldl_append, ih]

theorem GetDriversActionsParameters_flag_congr (a b : Forj) (hw : a.w = b.w)
    (hp : a.CurrentPluginDriver = b.CurrentPluginDriver) :
    GetDriversActionsParameters_flag a = GetDriversActionsParameters_flag b := by
  funext st e
  unfold GetDriversActionsParameters_flag
  rcases forjj_regexp_FindStringSubmatch e.1 with _ | key
  · rfl
  · simp [GetInternalData_congr a b hw hp]

/-- The parameter map and the cache in terms of the visited flags. -/
theorem GetDriversActionsParameters_eq (a : Forj) (cmd_args : GoMap String) (cmd : String) :
    GetDriversActionsParameters a cmd_args cmd =
      ({ a with flags_loaded := some (assemble a cmd (a.flags_loaded.getD [], cmd_args)).1 },
       (assemble a cmd (a.flags_loaded.getD [], cmd_args)).2) := by
  simp [GetDriversActionsParameters, foldl_visited_flags, assemble]

/-- One turn of the loop, seen from a flag `(k, v)` with a non-empty value that
shares its name and its written key with no other visited flag: the cache
holds for `k` nothing or the value of `v`, and the entry of the plugin-facing
name of `v`, once equal to the value of `v`, stays so. -/
theorem GetDriversActionsParameters_flag_keeps (a : Forj) (k : String) (v : DriverCmdOptionFlag)
    (hk : forjj_regexp_FindStringSubmatch k = none) (hv : v.value ≠ "")
    (e : String × DriverCmdOptionFlag)
    (he : e.1 = k ∨ written_name e = v.driver_flag_name → e = (k, v))
    (st : GoMap String × GoMap String)
    (hst : st.1.get k = none ∨ st.1.get k = some v.value) :
    ((GetDriversActionsParameters_flag a st e).1.get k = none ∨
      (GetDriversActionsParameters_flag a st e).1.get k = some v.value) ∧
    (st.2.get v.driver_flag_name = some v.value →
      (GetDriversActionsParameters_flag a st e).2.get v.driver_flag_name = some v.value) ∧
    (e = (k, v) →
      (GetDriversActionsParameters_flag a st e).2.get v.driver_flag_name = some v.value) := by
  by_cases hkv : e = (k, v)
  · subst hkv
    rcases hst with h | h
    · simp [GetDriversActionsParameters_flag, hk, h, hv, GoMap.get_set_self]
    · simp [GetDriversActionsParameters_flag, hk, h, hv, GoMap.get_set_self]
  · have hne : e.1 ≠ k := fun h => hkv (he (Or.inl h))
    have hwn : written_name e ≠ v.driver_flag_name := fun h => hkv (he (Or.inr h))
    obtain ⟨k', v'⟩ := e
    simp only [written_name] at hwn
    simp only at hne
    unfold GetDriversActionsParameters_flag
    rcases hr : forjj_regexp_FindStringSubmatch k' with _ | key
    · simp only [hr] at hwn
      rcases hc : st.1.get k' with _ | saved
      · by_cases hval : v'.value = ""
        · simp [hval, hkv, hst]
        · simp [hval, hkv, GoMap.get_set_ne _ _ _ _ hne, GoMap.get_set_ne _ _ _ _ hwn, hst]
      · by_cases hval : saved = ""
        · simp [hval, hkv, hst]
        · simp [hval, hkv, GoMap.get_set_ne _ _ _ _ hne, GoMap.get_set_ne _ _ _ _ hwn, hst]
    · simp only [hr] at hwn
      simp [hkv, GoMap.get_set_ne _ _ _ _ hwn, hst]

theorem GetDriversActionsParameters_fold_keeps (a : Forj) (k : String) (v : DriverCmdOptionFlag)
    (hk : forjj_regexp_FindStringSubmatch k = none) (hv : v.value ≠ "")
    (l : List (String × DriverCmdOptionFlag))
    (hl : ∀ e ∈ l, e.1 = k ∨ written_name e = v.driver_flag_name → e = (k, v))
    (st : GoMap String × GoMap String)
    (hst : st.1.get k = none ∨ st.1.get k = some v.value)
    (hin : st.2.get v.driver_flag_name = some v.value ∨ (k, v) ∈ l) :
    (l.foldl (GetDriversActionsParameters_flag a) st).2.get v.driver_flag_name =
      some v.value := by
  induction l generalizing st with
  | nil =>
    rcases hin with h | h
    · simpa using h
    · simp at h
  | cons e l ih =>
    have step := GetDriversActionsParameters_flag_keeps a k v hk hv e
      (hl e (List.mem_cons_self _ _)) st hst
    rw [List.foldl_cons]
    apply ih (fun x hx => hl x (List.mem_cons_of_mem _ hx)) _ step.1
    rcases hin with h | h
    · exact Or.inl (step.2.1 h)
    · rcases List.mem_cons.1 h with h' | h'
      · exact Or.inl (step.2.2 h'.symm)
      · exact Or.inr h'

/-- The cache entry of a name that is the name of no visited flag outside the
reserved pattern is left as it was. -/
theorem GetDriversActionsParameters_fold_cache (a : Forj) (x : String)
    (l : List (String × DriverCmdOptionFlag))
    (hl : ∀ e ∈ l, forjj_regexp_FindStringSubmatch e.1 = none → e.1 ≠ x)
    (st : GoMap String × GoMap String) :
    (l.foldl (GetDriversActionsParameters_flag a) st).1.get x = st.1.get x := by
  induction l generalizing st with
  | nil => rfl
  | cons e l ih =>
    rw [List.foldl_cons, ih (fun y hy => hl y (List.mem_cons_of_mem _ hy))]
    have he := hl e (List.mem_cons_self _ _)
    unfold GetDriversActionsParameters_flag
    rcases hr : forjj_regexp_FindStringSubmatch e.1 with _ | key
    · have hne := he hr
      rcases hc : st.1.get e.1 with _ | saved
      · by_cases hval : e.2.value = ""
        · simp [hval]
        · simp [hval, GoMap.get_set_ne _ _ _ _ hne]
      · by_cases hval : saved = ""
        · simp [hval]
        · simp [hval, GoMap.get_set_ne _ _ _ _ hne]
    · simp

/-- Two caches that agree on the names of the visited flags outside the
reserved pattern give the same parameter map. -/
theorem GetDriversActionsParameters_fold_agree (a : Forj)
    (l : List (String × DriverCmdOptionFlag))
    (st₁ st₂ : GoMap String × GoMap String)
    (hargs : st₁.2 = st₂.2)
    (hl : ∀ e ∈ l, forjj_regexp_FindStringSubmatch e.1 = none → st₁.1.get e.1 = st₂.1.get e.1) :
    (l.foldl (GetDriversActionsParameters_flag a) st₁).2 =
      (l.foldl (GetDriversActionsParameters_flag a) st₂).2 := by
  induction l generalizing st₁ st₂ with
  | nil => simpa using hargs
  | cons e l ih =>
    rw [List.foldl_cons, List.foldl_cons]
    have he := hl e (List.mem_cons_self _ _)
    rcases hr : forjj_regexp_FindStringSubmatch e.1 with _ | key
    · have hc := he hr
      apply ih
      · simp only [GetDriversActionsParameters_flag, hr, hc]
        split <;> simp [hargs]
      · intro y hy hyr
        have := hl y (List.mem_cons_of_mem _ hy) hyr
        simp only [GetDriversActionsParameters_flag, hr, hc]
        split
        · simp [GoMap.get_set, this]
        · exact this
    · apply ih
      · simp [GetDriversActionsParameters_flag, hr, hargs]
      · intro y hy hyr
        simpa [GetDriversActionsParameters_flag, hr] using hl y (List.mem_cons_of_mem _ hy) hyr

/-! ## Properties of `GetDriversActionsParameters` -/

/-- C9 (refuted as stated): the common-phase option `forjj-organization` of
`git1` has the non-empty resolved value `myorg` and the common-phase option
`debug` the command-line value `true`, yet the maps assembled for `create`,
`update` and `maintain` hold neither: the map of `create` holds `token` alone,
the two others are empty. -/
theorem GetDriversActionsParameters_without_common :
    resolved_common.map (fun a =>
      (flag_value a "git1" "common" "forjj-organization",
       (GetDriversActionsParameters a [] "create").2,
       (GetDriversActionsParameters a [] "update").2,
       (GetDriversActionsParameters a [] "maintain").2)) =
      some (some "myorg", [("token", "xyz")], [], []) := by
  decide

/-- C9 (amended): for every driver set and every phase other than `common`,
common-phase options are not replicated into the map that
`GetDriversActionsParameters` assembles for the phase: when every driver is
replaced by one that has the same flag sets for the phases other than `common`
(its common-phase flag set being changed in any way), the map and the cache
after the call are the same. A flag of the phase, of any instance, whose name
is outside the reserved pattern and whose value is not empty has its value in
the map under its plugin-facing name, provided no other visited flag of the
phase has its name or is written under its plugin-facing name and the cache
holds no other value for its name. -/
theorem GetDriversActionsParameters_phase_only (a : Forj) (cmd_args : GoMap String)
    (cmd : String) (hcmd : cmd ≠ "common") :
    (∀ g : Driver → Driver, (∀ d c, c ≠ "common" → (g d).cmds.get c = d.cmds.get c) →
      (GetDriversActionsParameters
          { a with drivers := a.drivers.map (fun e => (e.1, g e.2)) } cmd_args cmd).2 =
        (GetDriversActionsParameters a cmd_args cmd).2 ∧
      (GetDriversActionsParameters
          { a with drivers := a.drivers.map (fun e => (e.1, g e.2)) }
          cmd_args cmd).1.flags_loaded =
        (GetDriversActionsParameters a cmd_args cmd).1.flags_loaded) ∧
    (∀ (i k : String) (d : Driver) (v : DriverCmdOptionFlag),
      (i, d) ∈ a.drivers → (k, v) ∈ d.cmd_flags cmd →
      forjj_regexp_FindStringSubmatch k = none → v.value ≠ "" →
      ((a.flags_loaded.getD []).get k = none ∨
        (a.flags_loaded.getD []).get k = some v.value) →
      (∀ e ∈ visited_flags a.drivers cmd,
        e.1 = k ∨ written_name e = v.driver_flag_name → e = (k, v)) →
      (GetDriversActionsParameters a cmd_args cmd).2.get v.driver_flag_name =
        some v.value) := by
  constructor
  · intro g hg
    have hflags : ∀ d, (g d).cmd_flags cmd = d.cmd_flags cmd := by
      intro d
      simp [Driver.cmd_flags, hg d cmd hcmd]
    rw [GetDriversActionsParameters_eq, GetDriversActionsParameters_eq]
    simp only [assemble, visited_flags_map _ _ _ hflags]
    rw [GetDriversActionsParameters_flag_congr
      { a with drivers := a.drivers.map (fun e => (e.1, g e.2)) } a rfl rfl]
    exact ⟨rfl, rfl⟩
  · intro i k d v hd hkv hk hv hcache hother
    rw [GetDriversActionsParameters_eq]
    exact GetDriversActionsParameters_fold_keeps a k v hk hv _ hother _ hcache
      (Or.inr (mem_visited_flags hd hkv))

/-- C9 (amended) for the phase `create` of `git1`: the map and the cache are the
same with the common-phase flags removed, and the map holds `xyz` under
`token`. -/
theorem GetDriversActionsParameters_phase_only_witness :
    ((GetDriversActionsParameters
        { forj_git1_resolved with
          drivers := forj_git1_resolved.drivers.map (fun e => (e.1, without_common e.2)) }
        [] "create").2 =
      (GetDriversActionsParameters forj_git1_resolved [] "create").2 ∧
     (GetDriversActionsParameters
        { forj_git1_resolved with
          drivers := forj_git1_resolved.drivers.map (fun e => (e.1, without_common e.2)) }
        [] "create").1.flags_loaded =
      (GetDriversActionsParameters forj_git1_resolved [] "create").1.flags_loaded) ∧
    (GetDriversActionsParameters forj_git1_resolved [] "create").2.get "token" = some "xyz" :=
  ⟨(GetDriversActionsParameters_phase_only forj_git1_resolved [] "create" (by decide)).1
      without_common
      (fun d c hc => by
        have hc' : "common" ≠ c := fun h => hc h.symm
        simp [without_common, GoMap.get_set_ne _ _ _ _ hc']),
   (GetDriversActionsParameters_phase_only forj_git1_resolved [] "create" (by decide)).2
      "git1" "git1-token" driver_git1_resolved { driver_flag_name := "token", value := "xyz" }
      (by decide) (by decide) (by decide) (by decide) (Or.inl (by decide)) (by decide)⟩

/-- C10 (refuted as stated): `token` of `git1` is declared in `create` and in
`maintain` under the same composed name `git1-token`; its value in `maintain`
is empty, and the map assembled for `maintain` alone is empty, but assembled
after `create` it holds the value `xyz` resolved for `create`, which
`flags_loaded` has kept. -/
theorem GetDriversActionsParameters_phase_leak :
    resolved_two_phases.map (fun a =>
      (flag_value a "git1" "maintain" "git1-token",
       (GetDriversActionsParameters a [] "maintain").2,
       (GetDriversActionsParameters (GetDriversActionsParameters a [] "create").1
          [] "maintain").2)) =
      some (some "", [], [("token", "xyz")]) := by
  decide

/-- C10 (amended): for two phases `p` and `q` such that no flag name outside the
reserved pattern visited for `p` is a flag name visited for `q`, assembling
`q` after `p`, each in its own argument map, gives the same map as assembling
`q` alone. -/
theorem GetDriversActionsParameters_phase_frame (a : Forj) (p q : String)
    (args_p args_q : GoMap String)
    (hdisjoint : ∀ e ∈ visited_flags a.drivers p, ∀ e' ∈ visited_flags a.drivers q,
      forjj_regexp_FindStringSubmatch e.1 = none → e.1 ≠ e'.1) :
    (GetDriversActionsParameters (GetDriversActionsParameters a args_p p).1 args_q q).2 =
      (GetDriversActionsParameters a args_q q).2 := by
  rw [GetDriversActionsParameters_eq a args_p p, GetDriversActionsParameters_eq,
    GetDriversActionsParameters_eq]
  simp only [assemble, Option.getD_some]
  rw [GetDriversActionsParameters_flag_congr
    { a with flags_loaded := some ((visited_flags a.drivers p).foldl
        (GetDriversActionsParameters_flag a) (a.flags_loaded.getD [], args_p)).1 } a rfl rfl]
  apply GetDriversActionsParameters_fold_agree
  · rfl
  · intro e' he' _
    exact GetDriversActionsParameters_fold_cache a e'.1 _
      (fun e he hr => hdisjoint e he e' he' hr) _

/-- C10 (amended) for `git1`, `p` the phase `create`, whose flag `git1-token` has
the value `xyz`, and `q` the phase `maintain`, whose flags are the reserved
`forjj-organization` and `git1-key` of value `k`: the call for `create` leaves
`xyz` in the cache under `git1-token`, and the map of `maintain` assembled after
it is the one assembled alone, with the organization and `k` under `key`. -/
theorem GetDriversActionsParameters_phase_frame_witness :
    (GetDriversActionsParameters
        (GetDriversActionsParameters forj_disjoint_phases [] "create").1 [] "maintain").2 =
      (GetDriversActionsParameters forj_disjoint_phases [] "maintain").2 ∧
    (GetDriversActionsParameters forj_disjoint_phases [] "maintain").2 =
      [("forjj-organization", "myorg"), ("key", "k")] ∧
    (GetDriversActionsParameters forj_disjoint_phases [] "create").1.flags_loaded =
      some [("git1-token", "xyz")] :=
  ⟨GetDriversActionsParameters_phase_frame forj_disjoint_phases "create" "maintain" [] []
    (by decide), by decide, by decide⟩

/-! ## `set_flag_options` without persisted value -/

/-- C17: for an option with no non-empty persisted value (no driver options
record, no entry for the option, or an empty stored value), `set_flag_options`
marks the flag required exactly when the schema marks the option required,
and gives it the schema's default (`params.Default`) as default exactly when
the schema default (tested as `params.Options.Default`) is not empty; for a nil
schema entry it returns no options at all. -/
theorem set_flag_options_not_persisted (d : Option DriverOptions) (option_name : String)
    (params : YamlFlags)
    (h : d = none ∨ (∃ r, d = some r ∧ r.Options.get option_name = none) ∨
      (∃ r option_value, d = some r ∧ r.Options.get option_name = some option_value ∧
        option_value.Value = "")) :
    set_flag_options d option_name (some params) =
      some { required := params.Options.Required,
             dflt := if params.Options.Default ≠ "" then some params.Default else none } ∧
    set_flag_options d option_name none = none := by
  refine ⟨?_, rfl⟩
  rcases h with h | ⟨r, h, hg⟩ | ⟨r, ov, h, hg, hv⟩
  · subst h
    by_cases hd : params.Options.Default = "" <;>
      by_cases hr : params.Options.Required = true <;>
      simp [set_flag_options, hd, hr, ForjOpts.Opts, ForjOpts.Default, ForjOpts.Required]
  · subst h
    by_cases hd : params.Options.Default = "" <;>
      by_cases hr : params.Options.Required = true <;>
      simp [set_flag_options, hg, hd, hr, ForjOpts.Opts, ForjOpts.Default, ForjOpts.Required]
  · subst h
    by_cases hd : params.Options.Default = "" <;>
      by_cases hr : params.Options.Required = true <;>
      simp [set_flag_options, hg, hv, hd, hr, ForjOpts.Opts, ForjOpts.Default,
        ForjOpts.Required]

/-- C17 for the option `url`, required with default `changeme` in the schema:
without record, without entry, and with an empty stored value. -/
theorem set_flag_options_not_persisted_witness :
    (set_flag_options none "url" (some (mk_flag true "changeme" false)) =
        some { required := true, dflt := some "changeme" } ∧
      set_flag_options none "url" none = none) ∧
    (set_flag_options (some { driver_type := "upstream", Options := [] }) "url"
          (some (mk_flag true "changeme" false)) =
        some { required := true, dflt := some "changeme" } ∧
      set_flag_options (some { driver_type := "upstream", Options := [] }) "url" none = none) ∧
    (set_flag_options (some { driver_type := "upstream", Options := [("url", ⟨"", ""⟩)] }) "url"
          (some (mk_flag false "" false)) =
        some { required := false, dflt := none } ∧
      set_flag_options (some { driver_type := "upstream", Options := [("url", ⟨"", ""⟩)] }) "url"
        none = none) :=
  ⟨set_flag_options_not_persisted none "url" (mk_flag true "changeme" false) (Or.inl rfl),
   set_flag_options_not_persisted (some { driver_type := "upstream", Options := [] }) "url"
     (mk_flag true "changeme" false) (Or.inr (Or.inl ⟨_, rfl, by decide⟩)),
   set_flag_options_not_persisted
     (some { driver_type := "upstream", Options := [("url", ⟨"", ""⟩)] }) "url"
     (mk_flag false "" false) (Or.inr (Or.inr ⟨_, ⟨"", ""⟩, rfl, by decide, rfl⟩))⟩

/-! ## The infra repository name in `ParseContext` -/

theorem ParseContext_organization_infra (w : Workspace) (c : CliValues) :
    (ParseContext_organization w c).Infra = w.Infra := by
  unfold ParseContext_organization
  split
  · dsimp only
    split <;> split <;> rfl
  · rfl

theorem ParseContext_infra_organization (w : Workspace) (c : CliValues) :
    (ParseContext_infra w c).Organization = w.Organization := by
  unfold ParseContext_infra
  split
  · dsimp only
    split <;> rfl
  · split <;> rfl

/-- When the infra flag is found, or when no organization is known once the
organization is set, an infra repository name that is set is kept. -/
theorem ParseContext_names_infra_kept (w : Workspace) (c : CliValues)
    (hset : w.Infra.Name ≠ "")
    (h : c.infra.2.1 = true ∨ (ParseContext_names w c).Organization = "") :
    (ParseContext_names w c).Infra.Name = w.Infra.Name := by
  have hi := ParseContext_organization_infra w c
  have ho := ParseContext_infra_organization (ParseContext_organization w c) c
  unfold ParseContext_names at h ⊢
  rw [ho] at h
  unfold ParseContext_infra
  rcases h with h | h
  · simp [h, hset, hi]
  · by_cases hf : c.infra.2.1 = true
    · simp [hf, hset, hi]
    · simp [hf, h, hi]

/-- C18 (the code at the failing input): the workspace of organization `myorg`
has the infra repository name `my-infra`; when the infra flag is not found,
`ParseContext` replaces the name by `myorg-infra`, whereas with the flag found,
even with another value, the name is kept. -/
theorem ParseContext_names_infra_overwritten :
    (ParseContext_names { Organization := "myorg", Infra := { Name := "my-infra" } }
        cli_nothing_found).Infra.Name = "myorg-infra" ∧
    (ParseContext_names { Organization := "", Infra := { Name := "my-infra" } }
        cli_nothing_found).Infra.Name = "myorg-infra" ∧
    (ParseContext_names { Organization := "myorg", Infra := { Name := "my-infra" } }
        cli_infra_found).Infra.Name = "my-infra" := by
  decide

/-! ## Phase tags unknown to the driver -/

theorem reg_step_refl (s : Forj × Driver) : reg_step s s :=
  ⟨⟨[], by simp⟩, ⟨s.2.cmds, rfl⟩, fun _ h => h⟩

theorem reg_step_trans {s t u : Forj × Driver} (h₁ : reg_step s t) (h₂ : reg_step t u) :
    reg_step s u := by
  obtain ⟨⟨l₁, e₁⟩, ⟨c₁, d₁⟩, n₁⟩ := h₁
  obtain ⟨⟨l₂, e₂⟩, ⟨c₂, d₂⟩, n₂⟩ := h₂
  refine ⟨⟨l₁ ++ l₂, ?_⟩, ⟨c₂, ?_⟩, fun tag h => n₂ tag (n₁ tag h)⟩
  · rw [e₂, e₁]
    simp [List.append_assoc]
  · rw [d₂, d₁]

/-- A write of a slot that succeeds changes the flag sets of the driver only
and gives no flag set to a tag that had none. -/
theorem Driver.set_flag_some {d d' : Driver} {c n : String} {f : DriverCmdOptionFlag}
    (h : d.set_flag c n f = some d') :
    (∃ cmds, d' = { d with cmds := cmds }) ∧
    (∀ tag, d.cmds.get tag = none → d'.cmds.get tag = none) := by
  unfold Driver.set_flag at h
  rcases hc : d.cmds.get c with _ | x
  · simp [hc] at h
  · simp only [hc, Option.some.injEq] at h
    subst h
    refine ⟨⟨_, rfl⟩, ?_⟩
    intro tag htag
    have hne : c ≠ tag := by
      intro heq
      rw [heq, htag] at hc
      exact Option.noConfusion hc
    simpa [GoMap.get_set_ne _ _ _ _ hne] using htag

/-- A write of a slot under a tag that has no flag set panics. -/
theorem Driver.set_flag_none (d : Driver) (c n : String) (f : DriverCmdOptionFlag)
    (h : d.cmds.get c = none) : d.set_flag c n f = none := by
  simp [Driver.set_flag, h]

theorem init_driver_flags_option_some {i : String} {d_opts : DriverOptions} {command : String}
    {flags : GoMap YamlFlags} {s t : Forj × Driver} {o : String}
    (h : init_driver_flags_option i d_opts command flags (some s) o = some t) :
    reg_step s t := by
  obtain ⟨a, d⟩ := s
  unfold init_driver_flags_option at h
  dsimp only at h
  generalize (flags.get o).getD _ = flag_options at h
  by_cases hr : forjj_MatchString o = true
  · simp only [hr, if_true] at h
    rcases hs : d.set_flag command o { driver_flag_name := o, value := "" } with _ | d'
    · simp [hs] at h
    · simp only [hs, Option.some.injEq] at h
      subst h
      exact ⟨⟨[], by simp⟩, Driver.set_flag_some hs⟩
  · have hr' : forjj_MatchString o = false := by simpa using hr
    simp only [hr', Bool.false_eq_true, if_false] at h
    by_cases hcommon : command = "common"
    · simp only [hcommon, if_true, init_driver_flags_for, Option.some.injEq] at h
      subst h
      exact ⟨⟨_, rfl⟩, ⟨d.cmds, rfl⟩, fun _ h => h⟩
    · simp only [hcommon, if_false, init_driver_flags_for] at h
      by_cases hempty : command = ""
      · simp only [hempty, if_true, Option.some.injEq] at h
        subst h
        exact ⟨⟨_, rfl⟩, ⟨d.cmds, rfl⟩, fun _ h => h⟩
      · simp only [hempty, if_false] at h
        rcases hs : d.set_flag command (i ++ "-" ++ o) { driver_flag_name := o, value := "" }
          with _ | d'
        · simp [hs] at h
        · simp only [hs, Option.some.injEq] at h
          subst h
          exact ⟨⟨_, rfl⟩, Driver.set_flag_some hs⟩

theorem init_driver_flags_options_none (i : String) (d_opts : DriverOptions) (command : String)
    (flags : GoMap YamlFlags) (ks : List String) :
    ks.foldl (init_driver_flags_option i d_opts command flags) none = none := by
  induction ks with
  | nil => rfl
  | cons k ks ih => simpa [List.foldl_cons, init_driver_flags_option] using ih

theorem init_driver_flags_options_some {i : String} {d_opts : DriverOptions} {command : String}
    {flags : GoMap YamlFlags} (ks : List String) {s t : Forj × Driver}
    (h : ks.foldl (init_driver_flags_option i d_opts command flags) (some s) = some t) :
    reg_step s t := by
  induction ks generalizing s with
  | nil =>
    simp only [List.foldl_nil, Option.some.injEq] at h
    subst h
    exact reg_step_refl s
  | cons k ks ih =>
    rw [List.foldl_cons] at h
    rcases h₁ : init_driver_flags_option i d_opts command flags (some s) k with _ | s₁
    · rw [h₁, init_driver_flags_options_none] at h
      exact Option.noConfusion h
    · rw [h₁] at h
      exact reg_step_trans (init_driver_flags_option_some h₁) (ih h)

theorem init_driver_flags_commands_none (i : String) (d_opts : DriverOptions)
    (tasks : GoMap (GoMap YamlFlags)) :
    tasks.foldl (init_driver_flags_command i d_opts) none = none := by
  induction tasks with
  | nil => rfl
  | cons e tasks ih =>
    rw [List.foldl_cons]
    simp only [init_driver_flags_command, init_driver_flags_options_none]
    simpa [init_driver_flags_command] using ih

theorem init_driver_flags_commands_some {i : String} {d_opts : DriverOptions}
    (tasks : GoMap (GoMap YamlFlags)) {s t : Forj × Driver}
    (h : tasks.foldl (init_driver_flags_command i d_opts) (some s) = some t) :
    reg_step s t := by
  induction tasks generalizing s with
  | nil =>
    simp only [List.foldl_nil, Option.some.injEq] at h
    subst h
    exact reg_step_refl s
  | cons e tasks ih =>
    rw [List.foldl_cons] at h
    rcases h₁ : init_driver_flags_command i d_opts (some s) e with _ | s₁
    · rw [h₁, init_driver_flags_commands_none] at h
      exact Option.noConfusion h
    · rw [h₁] at h
      exact reg_step_trans (init_driver_flags_options_some _ h₁) (ih h)

/-- A registration that returns has changed, besides the requests sent to the
command-line library, the flag sets of the driver of the instance only. -/
theorem init_driver_flags_some {a s : Forj} {i : String} (h : init_driver_flags a i = some s) :
    ∃ d cmds l, a.drivers.get i = some d ∧
      s = { a with cli := a.cli ++ l, drivers := a.drivers.set i { d with cmds := cmds } } := by
  unfold init_driver_flags at h
  rcases hd : a.drivers.get i with _ | d
  · simp [hd] at h
  · simp only [hd] at h
    rcases hf : List.foldl (init_driver_flags_command i
        ((a.drivers_options.Drivers.get i).getD { driver_type := "", Options := [] }))
        (some (a, d)) d.plugin.Yaml.Tasks with _ | t
    · simp [hf] at h
    · obtain ⟨⟨l, e₁⟩, ⟨cmds, e₂⟩, _⟩ := init_driver_flags_commands_some _ hf
      simp only [hf, Option.some.injEq] at h
      refine ⟨d, cmds, l, rfl, ?_⟩
      rw [← h, e₁, e₂]

/-- The options of a tag that has no flag set in the driver, other than
`common` and the empty tag: the first one panics. -/
theorem init_driver_flags_options_unknown_tag (i : String) (d_opts : DriverOptions)
    (tag : String) (flags : GoMap YamlFlags) (ks : List String) (s : Forj × Driver)
    (hno : s.2.cmds.get tag = none) (hcommon : tag ≠ "common") (hempty : tag ≠ "")
    (hks : ks ≠ []) :
    ks.foldl (init_driver_flags_option i d_opts tag flags) (some s) = none := by
  rcases ks with _ | ⟨k, ks⟩
  · exact absurd rfl hks
  · have h₁ : init_driver_flags_option i d_opts tag flags (some s) k = none := by
      obtain ⟨a, d⟩ := s
      unfold init_driver_flags_option
      dsimp only
      by_cases hr : forjj_MatchString k = true
      · simp [hr, Driver.set_flag_none d tag _ _ hno]
      · simp [hr, hcommon, init_driver_flags_for, hempty, Driver.set_flag_none d tag _ _ hno]
    rw [List.foldl_cons, h₁, init_driver_flags_options_none]

/-- A plugin that declares an option under a phase tag for which the driver has
no flag set (a tag other than `common` and the empty tag) makes
`init_driver_flags` panic, wherever the tag comes in the task list. -/
theorem init_driver_flags_unknown_tag (a : Forj) (i tag : String) (d : Driver)
    (flags : GoMap YamlFlags)
    (hd : a.drivers.get i = some d)
    (ht : (tag, flags) ∈ d.plugin.Yaml.Tasks)
    (hno : d.cmds.get tag = none) (hcommon : tag ≠ "common") (hempty : tag ≠ "")
    (hflags : flags ≠ []) :
    init_driver_flags a i = none := by
  have key : ∀ (tasks : GoMap (GoMap YamlFlags)) (s : Forj × Driver) (d_opts : DriverOptions),
      (tag, flags) ∈ tasks → s.2.cmds.get tag = none →
      tasks.foldl (init_driver_flags_command i d_opts) (some s) = none := by
    intro tasks
    induction tasks with
    | nil => intro s _ h; simp at h
    | cons e tasks ih =>
      intro s d_opts hmem hs
      rw [List.foldl_cons]
      rcases h₁ : init_driver_flags_command i d_opts (some s) e with _ | s₁
      · exact init_driver_flags_commands_none i d_opts tasks
      · rcases List.mem_cons.1 hmem with h | h
        · subst h
          have hks : sort_Strings flags.keys ≠ [] := by
            rcases flags with _ | ⟨x, xs⟩
            · exact absurd rfl hflags
            · intro hnil
              have : x.1 ∈ sort_Strings (GoMap.keys (x :: xs)) :=
                (mem_sort_Strings _ _).2 (by simp [GoMap.keys])
              rw [hnil] at this
              simp at this
          have := init_driver_flags_options_unknown_tag i d_opts tag flags _ s hs hcommon
            hempty hks
          simp only [init_driver_flags_command] at h₁
          rw [this] at h₁
          exact Option.noConfusion h₁
        · exact ih s₁ d_opts h ((init_driver_flags_options_some _ h₁).2.2 tag hs)
  simp [init_driver_flags, hd, key d.plugin.Yaml.Tasks (a, d) _ ht hno]

/-- C16 (the code at the failing input): the plugin of `git1` declares an
option under the custom phase tag `delete`; the driver has no flag set for
that tag, the write of the slot goes to a nil map and `init_driver_flags`
panics, whether the option is reserved or not and wherever the tag is visited,
instead of ignoring the tag. -/
theorem init_driver_flags_custom_tag_panics :
    init_driver_flags forj_custom_tag "git1" = none ∧
    init_driver_flags forj_custom_tag_reserved "git1" = none := by
  decide

/-! ## Loading the drivers -/

/-- What `read_driver` returns for an instance that has a driver: it does not
panic, and when it returns no error the driver of the instance has the flag
sets it had and a plugin document that is the one it had or one decoded by
the schema source; the persisted options are untouched. -/
theorem read_driver_returns (c : Collaborators) (a : Forj) (i : String) (d : Driver)
    (hd : a.drivers.get i = some d) :
    ∃ s err, read_driver c a i = some (s, err) ∧
      s.drivers_options = a.drivers_options ∧ s.cli = a.cli ∧
      (∀ j, j ≠ i → s.drivers.get j = a.drivers.get j) ∧
      (err = none → ∃ d', s.drivers.get i = some d' ∧ d'.cmds = d.cmds ∧
        d'.Name = d.Name ∧ d'.DriverType = d.DriverType ∧
        (d'.plugin.Yaml = d.plugin.Yaml ∨ ∃ doc, c.PluginDefLoad doc = some d'.plugin.Yaml)) := by
  unfold read_driver
  simp only [hd]
  by_cases hn : d.Name = ""
  · exact ⟨a, none, by simp [hn], rfl, rfl, fun _ _ => rfl, fun _ => ⟨d, hd, rfl, rfl, rfl, Or.inl rfl⟩⟩
  · simp only [hn, if_false]
    rcases hdoc : c.read_document_from d.DriverType d.Name with _ | doc
    · exact ⟨a, some LoadError.fetch, rfl, rfl, rfl, fun _ _ => rfl,
        fun h => Option.noConfusion h⟩
    · dsimp only
      rcases hy : c.PluginDefLoad doc with _ | yaml
      · exact ⟨a, some LoadError.decode, rfl, rfl, rfl, fun _ _ => rfl,
          fun h => Option.noConfusion h⟩
      · dsimp only
        split
        · exact ⟨_, some LoadError.template, rfl, rfl, rfl,
            fun j hj => GoMap.get_set_ne _ _ _ _ (fun h => hj h.symm),
            fun h => Option.noConfusion h⟩
        · refine ⟨_, none, rfl, rfl, rfl,
            fun j hj => GoMap.get_set_ne _ _ _ _ (fun h => hj h.symm),
            fun _ => ⟨_, GoMap.get_set_self _ _ _, ?_, ?_, ?_, Or.inr ⟨doc, ?_⟩⟩⟩
          · split <;> rfl
          · split <;> rfl
          · split <;> rfl
          · rw [hy]
            split <;> rfl

/-- The options of an instance whose driver has the four empty flag sets are
loaded without panic when the plugin documents use the four phase tags only:
`load_driver_options` returns, with or without error. -/
theorem load_driver_options_returns (c : Collaborators) (a : Forj) (i : String) (d : Driver)
    (hd : a.drivers.get i = some d) (hcmds : d.cmds = empty_cmds)
    (hc : ∀ doc yaml, c.PluginDefLoad doc = some yaml →
      ∀ e ∈ yaml.Tasks, (empty_cmds.get e.1).isSome)
    (hp : ∀ e ∈ d.plugin.Yaml.Tasks, (empty_cmds.get e.1).isSome) :
    ∃ s err, load_driver_options c a i = some (s, err) := by
  obtain ⟨s, err, e, _, _, _, hok⟩ := read_driver_returns c a i d hd
  unfold load_driver_options
  rw [e]
  rcases err with _ | err
  · obtain ⟨d', hd', hcmds', _, _, hyaml⟩ := hok rfl
    simp only [hd']
    by_cases hname : d'.plugin.Yaml.Name = ""
    · exact ⟨s, none, by simp [hname]⟩
    · have hvalid : ∀ e ∈ d'.plugin.Yaml.Tasks, (d'.cmds.get e.1).isSome := by
        rw [hcmds', hcmds]
        rcases hyaml with h | ⟨doc, h⟩
        · rw [h]
          exact hp
        · exact hc doc _ h
      obtain ⟨d'', l, e', _⟩ := init_driver_flags_ok s i d' hd' hvalid
      refine ⟨{ s with cli := s.cli ++ l, drivers := s.drivers.set i d'' }, none, ?_⟩
      simp [hname, e']
  · exact ⟨s, some err, rfl⟩

/-- When the plugin documents, decoded or persisted, use the four phase tags
only, `load_missing_drivers` returns, whatever the schema source fails to
fetch or decode. -/
theorem load_missing_drivers_returns (c : Collaborators) (a : Forj)
    (hc : ∀ doc yaml, c.PluginDefLoad doc = some yaml →
      ∀ e ∈ yaml.Tasks, (empty_cmds.get e.1).isSome)
    (hp : ∀ x ∈ a.o_Drivers, ∀ e ∈ x.2.plugin.Yaml.Tasks, (empty_cmds.get e.1).isSome) :
    ∃ s, load_missing_drivers c a = some s := by
  unfold load_missing_drivers
  generalize a.o_Drivers = l at hp
  induction l generalizing a with
  | nil => exact ⟨a, rfl⟩
  | cons x l ih =>
    rw [List.foldl_cons]
    have step : ∃ a₁, load_missing_drivers_instance c (some a) x = some a₁ := by
      unfold load_missing_drivers_instance
      dsimp only
      rcases hx : a.drivers.get x.1 with _ | d₀
      · dsimp only
        obtain ⟨s, err, e⟩ := load_driver_options_returns c
          { a with drivers := a.drivers.set x.1 { x.2 with cmds := empty_cmds } } x.1
          { x.2 with cmds := empty_cmds } (GoMap.get_set_self _ _ _) rfl hc
          (hp x (List.mem_cons_self _ _))
        exact ⟨s, by rw [e]⟩
      · exact ⟨a, rfl⟩
    obtain ⟨a₁, e₁⟩ := step
    rw [e₁]
    exact ih a₁ (fun y hy => hp y (List.mem_cons_of_mem _ hy))

/-- C14 (the code at the failing input): of three persisted instances, `git1`,
`bad` whose document cannot be fetched, and `ci1`, the two others are loaded
with their flags and `bad` is left without plugin and without flags; but when
the second instance is `odd1`, whose plugin declares an option under the
custom phase tag `delete`, `load_missing_drivers` panics in `init_driver_flags`
and does not return: the instance visited after it is not loaded. -/
theorem load_missing_drivers_custom_tag_panics :
    (load_missing_drivers example_collaborators
        (forj_persisted [("git1", persisted_driver "github" "upstream" "git1"),
                         ("bad", persisted_driver "broken" "upstream" "bad"),
                         ("ci1", persisted_driver "jenkins" "ci" "ci1")])).map loaded_view =
      some [⟨"git1", "github", "upstream", "github", ["git1-token"]⟩,
            ⟨"bad", "broken", "upstream", "", []⟩,
            ⟨"ci1", "jenkins", "ci", "jenkins", ["ci1-url"]⟩] ∧
    load_missing_drivers example_collaborators
        (forj_persisted [("git1", persisted_driver "github" "upstream" "git1"),
                         ("odd1", persisted_driver "odd" "upstream" "odd1"),
                         ("ci1", persisted_driver "jenkins" "ci" "ci1")]) = none := by
  decide

/-! ## Properties of `GetDriversFlags` -/

theorem GetDriversFlags_request_exited (c : Collaborators) (n : Nat) (l : List AppRequest) :
    l.foldl (GetDriversFlags_request c) (Outcome.exited n) = Outcome.exited n := by
  induction l with
  | nil => rfl
  | cons r l ih => simpa [List.foldl_cons, GetDriversFlags_request] using ih

/-- C13 (refuted as stated): `git1` is registered with the driver `github` of
type `upstream`; the request of the driver `jenkins` of type `ci` under the same
instance name returns without error, and the entry of `git1` is replaced by
the new driver with the flags of its plugin. -/
theorem GetDriversFlags_replaces_instance :
    loaded_view forj_git1_registered =
      [⟨"git1", "github", "upstream", "github",
        ["forjj-organization", "git1-token", "git1-token", "git1-key"]⟩] ∧
    returned_view (GetDriversFlags example_collaborators forj_git1_registered
        [⟨"jenkins", "ci", "git1"⟩]) =
      some [⟨"git1", "jenkins", "ci", "jenkins", ["git1-url"]⟩,
            ⟨"ci1", "jenkins", "ci", "jenkins", ["ci1-url"]⟩] := by
  decide

/-- C13 (amended): for an instance name already present in the driver registry,
the request of the same instance name with a different driver name or driver
type raises no error: when the document of the requested driver is
fetched and decoded, its flag-file template parses and its phase tags are
among the four phases, the turn of `GetDriversFlags` for the request returns,
and the registry entry of the instance is replaced by a driver of the
requested name and type, marked as requested, with the decoded plugin. -/
theorem GetDriversFlags_request_replaces (c : Collaborators) (a : Forj) (r : AppRequest)
    (d₀ : Driver) (doc text : String) (yaml : YamlPlugin)
    (hold : a.drivers.get r.name = some d₀)
    (hdiff : d₀.Name ≠ r.driver ∨ d₀.DriverType ≠ r.driver_type)
    (hdriver : r.driver ≠ "") (htype : r.driver_type ≠ "")
    (hdoc : c.read_document_from r.driver_type r.driver = some doc)
    (hyaml : c.PluginDefLoad doc = some yaml)
    (htemplate : c.template
      (if yaml.CreatedFile = "" then "." ++ r.name ++ ".created" else yaml.CreatedFile)
      r.name r.driver = some text)
    (hvalid : ∀ e ∈ yaml.Tasks, (empty_cmds.get e.1).isSome) :
    ∃ s d, GetDriversFlags_request c (Outcome.returned a) r = Outcome.returned s ∧
      s.drivers.get r.name = some d ∧ d ≠ d₀ ∧
      d.Name = r.driver ∧ d.DriverType = r.driver_type ∧ d.InstanceName = r.name ∧
      d.app_request = true ∧ d.plugin.Yaml = yaml := by
  have hne : ∀ d : Driver, d.Name = r.driver → d.DriverType = r.driver_type → d ≠ d₀ := by
    intro d h1 h2 heq
    subst heq
    rcases hdiff with h | h
    · exact h h1
    · exact h h2
  have hread : ∃ d₁, read_driver c
      { a with drivers := a.drivers.set r.name (requested_driver r) } r.name =
      some ({ a with drivers := a.drivers.set r.name d₁ }, none) ∧
      d₁.Name = r.driver ∧ d₁.DriverType = r.driver_type ∧ d₁.InstanceName = r.name ∧
      d₁.app_request = true ∧ d₁.plugin.Yaml = yaml ∧ d₁.cmds = empty_cmds := by
    refine ⟨{ requested_driver r with
        plugin := { Yaml := yaml, SourceMount := "", WorkspaceMount := "" },
        ForjjFlagFile := decide (yaml.CreatedFile = ""), FlagFile := text }, ?_, ?_⟩
    · by_cases hcf : yaml.CreatedFile = ""
      · simp only [hcf, if_true] at htemplate
        simp only [read_driver, GoMap.get_set_self, requested_driver, hdriver, if_false, hdoc,
          hyaml, hcf, if_true, htemplate]
        simp [GoMap.set_set]
      · simp only [hcf, if_false] at htemplate
        simp only [read_driver, GoMap.get_set_self, requested_driver, hdriver, if_false, hdoc,
          hyaml, hcf, htemplate]
        simp [GoMap.set_set, hcf]
    · simp [requested_driver]
  obtain ⟨d₁, e₁, h1, h2, h3, h4, h5, h6⟩ := hread
  by_cases hname : yaml.Name = ""
  · refine ⟨{ a with drivers := a.drivers.set r.name d₁ }, d₁, ?_, GoMap.get_set_self _ _ _,
      hne d₁ h1 h2, h1, h2, h3, h4, h5⟩
    simp [GetDriversFlags_request, hdriver, htype, load_driver_options, e₁,
      GoMap.get_set_self, h5, hname]
  · have hv : ∀ e ∈ d₁.plugin.Yaml.Tasks, (d₁.cmds.get e.1).isSome := by
      rw [h5, h6]
      exact hvalid
    obtain ⟨d₂, l, e₂, _⟩ := init_driver_flags_ok
      { a with drivers := a.drivers.set r.name d₁ } r.name d₁ (GoMap.get_set_self _ _ _) hv
    obtain ⟨d', cmds, l', hd', e₃⟩ := init_driver_flags_some e₂
    have hd₁ : d' = d₁ := by
      have := GoMap.get_set_self a.drivers r.name d₁
      simp only at hd'
      rw [this] at hd'
      exact (Option.some.inj hd').symm
    subst hd₁
    rw [e₃] at e₂
    refine ⟨{ ({ a with drivers := a.drivers.set r.name d' } : Forj) with
        cli := a.cli ++ l',
        drivers := (a.drivers.set r.name d').set r.name { d' with cmds := cmds } },
      { d' with cmds := cmds }, ?_, GoMap.get_set_self _ _ _, hne _ h1 h2, h1, h2, h3, h4, h5⟩
    simp [GetDriversFlags_request, hdriver, htype, load_driver_options, e₁,
      GoMap.get_set_self, h5, hname, e₂]

/-- C13 (amended) for `git1`, registered with `github` of type `upstream`, and
the request of `jenkins` of type `ci` under the name `git1`. -/
theorem GetDriversFlags_request_replaces_witness :
    ∃ s d, GetDriversFlags_request example_collaborators (Outcome.returned forj_git1_registered)
        ⟨"jenkins", "ci", "git1"⟩ = Outcome.returned s ∧
      s.drivers.get "git1" = some d ∧ d ≠ driver_git1_resolved ∧
      d.Name = "jenkins" ∧ d.DriverType = "ci" ∧ d.InstanceName = "git1" ∧
      d.app_request = true ∧
      d.plugin.Yaml =
        { Name := "jenkins", Tasks := [("maintain", [("url", mk_flag false "" false)])] } :=
  GetDriversFlags_request_replaces example_collaborators forj_git1_registered
    ⟨"jenkins", "ci", "git1"⟩ driver_git1_resolved "ci/jenkins" ".git1.created"
    { Name := "jenkins", Tasks := [("maintain", [("url", mk_flag false "" false)])] }
    (by decide) (Or.inl (by decide)) (by decide) (by decide) (by decide) (by decide)
    (by decide) (by decide)

/-- C15 (refuted as stated): the document of the requested driver `broken`
cannot be fetched, and the document of `garbled` cannot be decoded; in both
cases `GetDriversFlags` ends the program with `os.Exit(1)`: the request that
follows and the persisted instance `ci1` are not loaded. -/
theorem GetDriversFlags_load_error_exits :
    GetDriversFlags example_collaborators
        (forj_persisted [("ci1", persisted_driver "jenkins" "ci" "ci1")])
        [⟨"github", "upstream", "g"⟩, ⟨"broken", "upstream", "x"⟩, ⟨"github", "upstream", "h"⟩] =
      Outcome.exited 1 ∧
    GetDriversFlags example_collaborators
        (forj_persisted [("ci1", persisted_driver "jenkins" "ci" "ci1")])
        [⟨"garbled", "upstream", "x"⟩, ⟨"github", "upstream", "h"⟩] =
      Outcome.exited 1 := by
  decide

/-- C15 (amended): in `GetDriversFlags`, a schema fetch or decode failure for an
explicitly requested instance, reached after the requests before it have
returned, ends the run with exit status 1: the requested instances after it
and the persisted instances are not loaded. -/
theorem GetDriversFlags_load_error (c : Collaborators) (a a₁ : Forj)
    (pre rest : List AppRequest) (r : AppRequest)
    (hpre : pre.foldl (GetDriversFlags_request c) (Outcome.returned a) = Outcome.returned a₁)
    (hdriver : r.driver ≠ "") (htype : r.driver_type ≠ "")
    (hfail : c.read_document_from r.driver_type r.driver = none ∨
      ∃ doc, c.read_document_from r.driver_type r.driver = some doc ∧
        c.PluginDefLoad doc = none) :
    GetDriversFlags c a (pre ++ r :: rest) = Outcome.exited 1 := by
  have step : GetDriversFlags_request c (Outcome.returned a₁) r = Outcome.exited 1 := by
    rcases hfail with h | ⟨doc, h, h'⟩
    · simp [GetDriversFlags_request, hdriver, htype, load_driver_options, read_driver,
        GoMap.get_set_self, requested_driver, h]
    · simp [GetDriversFlags_request, hdriver, htype, load_driver_options, read_driver,
        GoMap.get_set_self, requested_driver, h, h']
  simp [GetDriversFlags, List.foldl_append, hpre, step, GetDriversFlags_request_exited]

/-- C15 (amended) for the request of `broken`, after a request without driver
name, which is skipped, and before the request of `github`. -/
theorem GetDriversFlags_load_error_witness :
    GetDriversFlags example_collaborators
        (forj_persisted [("ci1", persisted_driver "jenkins" "ci" "ci1")])
        ([⟨"", "upstream", "g"⟩] ++ ⟨"broken", "upstream", "x"⟩ ::
          [⟨"github", "upstream", "h"⟩]) =
      Outcome.exited 1 :=
  GetDriversFlags_load_error example_collaborators
    (forj_persisted [("ci1", persisted_driver "jenkins" "ci" "ci1")])
    (forj_persisted [("ci1", persisted_driver "jenkins" "ci" "ci1")])
    [⟨"", "upstream", "g"⟩] [⟨"github", "upstream", "h"⟩] ⟨"broken", "upstream", "x"⟩
    (by decide) (by decide) (by decide) (Or.inl (by decide))

/-! ## The loop body of `GetDriversActionsParameters` in terms of the entry written -/

theorem GetDriversActionsParameters_flag_args (a : Forj) (st : GoMap String × GoMap String)
    (e : String × DriverCmdOptionFlag) :
    (GetDriversActionsParameters_flag a st e).2 =
      match entry_written a st.1 e with
      | some nv => st.2.set nv.1 nv.2
      | none => st.2 := by
  unfold GetDriversActionsParameters_flag entry_written effective
  rcases forjj_regexp_FindStringSubmatch e.1 with _ | key
  · rcases st.1.get e.1 with _ | saved
    · by_cases hv : e.2.value = "" <;> simp [hv]
    · by_cases hv : saved = "" <;> simp [hv]
  · rfl

theorem GetDriversActionsParameters_flag_cache (a : Forj) (st : GoMap String × GoMap String)
    (e : String × DriverCmdOptionFlag) :
    (GetDriversActionsParameters_flag a st e).1 =
      if forjj_regexp_FindStringSubmatch e.1 = none ∧ effective st.1 e ≠ "" then
        st.1.set e.1 (effective st.1 e)
      else st.1 := by
  unfold GetDriversActionsParameters_flag effective
  rcases forjj_regexp_FindStringSubmatch e.1 with _ | key
  · rcases st.1.get e.1 with _ | saved
    · by_cases hv : e.2.value = "" <;> simp [hv]
    · by_cases hv : saved = "" <;> simp [hv]
  · simp

theorem effective_set (c : GoMap String) (k v : String) (e : String × DriverCmdOptionFlag) :
    effective (c.set k v) e = if k = e.1 then v else effective c e := by
  unfold effective
  rw [GoMap.get_set]
  by_cases h : k = e.1 <;> simp [h]

theorem entry_written_name {a : Forj} {c : GoMap String} {e : String × DriverCmdOptionFlag}
    {n v : String} (h : entry_written a c e = some (n, v)) : written_name e = n := by
  unfold entry_written at h
  unfold written_name
  rcases hr : forjj_regexp_FindStringSubmatch e.1 with _ | key
  · simp only [hr] at h ⊢
    split at h
    · exact (Prod.mk.inj (Option.some.inj h)).1
    · exact Option.noConfusion h
  · simp only [hr] at h ⊢
    exact (Prod.mk.inj (Option.some.inj h)).1

/-- The value given to a flag is not changed by the turn of another flag of
the loop, nor by the turn of the flag itself. -/
theorem effective_step (a : Forj) (st : GoMap String × GoMap String)
    (e₀ e : String × DriverCmdOptionFlag)
    (h : forjj_regexp_FindStringSubmatch e₀.1 = none → e₀.1 = e.1 → e₀ = e) :
    effective (GetDriversActionsParameters_flag a st e₀).1 e = effective st.1 e := by
  rw [GetDriversActionsParameters_flag_cache]
  split
  · rename_i hc
    rw [effective_set]
    split
    · rename_i hk
      rw [← h hc.1 hk]
    · rfl
  · rfl

theorem entry_written_step (a : Forj) (st : GoMap String × GoMap String)
    (e₀ e : String × DriverCmdOptionFlag)
    (h : forjj_regexp_FindStringSubmatch e₀.1 = none → e₀.1 = e.1 → e₀ = e) :
    entry_written a (GetDriversActionsParameters_flag a st e₀).1 e = entry_written a st.1 e := by
  unfold entry_written
  rw [effective_step a st e₀ e h]

/-! ## Empty values in the parameter map -/

/-- C11 (refuted as stated): the reserved options `forjj-instance-name`, asked
outside any plugin context, and `forjj-password`, an unknown key, resolve to
the empty string, and both have an entry in the map assembled for `create`;
the option `token`, whose value is empty, has none. -/
theorem GetDriversActionsParameters_reserved_empty :
    resolved_reserved_empty.map (fun a =>
      (flag_value a "git1" "create" "forjj-instance-name",
       flag_value a "git1" "create" "forjj-password",
       flag_value a "git1" "create" "git1-token",
       (GetDriversActionsParameters a [] "create").2)) =
      some (some "", some "", some "",
        [("forjj-instance-name", ""), ("forjj-password", "")]) := by
  decide

/-- One turn of the loop writes an empty value only for a flag that matches
the reserved pattern and whose internal value is empty. -/
theorem GetDriversActionsParameters_flag_empty (a : Forj) (st : GoMap String × GoMap String)
    (e : String × DriverCmdOptionFlag) (n : String)
    (h : (GetDriversActionsParameters_flag a st e).2.get n = some "") :
    st.2.get n = some "" ∨
      ∃ key, forjj_regexp_FindStringSubmatch e.1 = some key ∧ e.1 = n ∧
        GetInternalData a key = "" := by
  unfold GetDriversActionsParameters_flag at h
  rcases hr : forjj_regexp_FindStringSubmatch e.1 with _ | key
  · simp only [hr] at h
    split at h
    · rename_i hv
      rw [GoMap.get_set] at h
      split at h
      · exact absurd (Option.some.inj h) hv
      · exact Or.inl h
    · exact Or.inl h
  · simp only [hr] at h
    rw [GoMap.get_set] at h
    split at h
    · rename_i hn
      exact Or.inr ⟨key, rfl, hn, Option.some.inj h⟩
    · exact Or.inl h

/-- One turn of the loop removes no entry, and gives an entry to a flag that
matches the reserved pattern. -/
theorem GetDriversActionsParameters_flag_entry (a : Forj) (st : GoMap String × GoMap String)
    (e : String × DriverCmdOptionFlag) :
    (∀ n, (st.2.get n).isSome → ((GetDriversActionsParameters_flag a st e).2.get n).isSome) ∧
    (forjj_regexp_FindStringSubmatch e.1 ≠ none →
      ((GetDriversActionsParameters_flag a st e).2.get e.1).isSome) := by
  unfold GetDriversActionsParameters_flag
  rcases hr : forjj_regexp_FindStringSubmatch e.1 with _ | key
  · refine ⟨?_, fun h => absurd rfl h⟩
    intro n hn
    dsimp only
    split
    · rw [GoMap.get_set]
      split
      · rfl
      · exact hn
    · exact hn
  · refine ⟨?_, fun _ => by simp [GoMap.get_set_self]⟩
    intro n hn
    dsimp only
    rw [GoMap.get_set]
    split
    · rfl
    · exact hn

/-- The loop writes an empty value only for a flag that matches the reserved
pattern and whose internal value is empty, removes no entry, and gives an
entry to every flag that matches the reserved pattern. -/
theorem GetDriversActionsParameters_fold_empty (a : Forj)
    (l : List (String × DriverCmdOptionFlag)) (st : GoMap String × GoMap String) :
    (∀ n, (l.foldl (GetDriversActionsParameters_flag a) st).2.get n = some "" →
      st.2.get n = some "" ∨
        ∃ e ∈ l, ∃ key, forjj_regexp_FindStringSubmatch e.1 = some key ∧ e.1 = n ∧
          GetInternalData a key = "") ∧
    (∀ n, (st.2.get n).isSome →
      ((l.foldl (GetDriversActionsParameters_flag a) st).2.get n).isSome) ∧
    (∀ e ∈ l, forjj_regexp_FindStringSubmatch e.1 ≠ none →
      ((l.foldl (GetDriversActionsParameters_flag a) st).2.get e.1).isSome) := by
  induction l generalizing st with
  | nil =>
    exact ⟨fun n h => Or.inl h, fun n h => h, fun e he => absurd he (List.not_mem_nil _)⟩
  | cons e₀ l ih =>
    obtain ⟨h1, h2, h3⟩ := ih (GetDriversActionsParameters_flag a st e₀)
    obtain ⟨k1, k2⟩ := GetDriversActionsParameters_flag_entry a st e₀
    refine ⟨?_, fun n hn => h2 n (k1 n hn), ?_⟩
    · intro n hn
      rcases h1 n hn with h | ⟨e, he, key, hk⟩
      · rcases GetDriversActionsParameters_flag_empty a st e₀ n h with h' | ⟨key, hk⟩
        · exact Or.inl h'
        · exact Or.inr ⟨e₀, List.mem_cons_self _ _, key, hk⟩
      · exact Or.inr ⟨e, List.mem_cons_of_mem _ he, key, hk⟩
    · intro e he hr
      rcases List.mem_cons.1 he with h | h
      · subst h
        exact h2 _ (k2 hr)
      · exact h3 e h hr

/-- A key of the parameter map is left as it was when every flag of the loop
written under it is outside the reserved pattern, has no value in the cache
and has an empty value, as has every flag of the loop of the same name. -/
theorem GetDriversActionsParameters_fold_absent (a : Forj)
    (l : List (String × DriverCmdOptionFlag)) (st : GoMap String × GoMap String) (n : String)
    (h : ∀ e ∈ l, written_name e = n →
      forjj_regexp_FindStringSubmatch e.1 = none ∧ st.1.get e.1 = none ∧
        ∀ e' ∈ l, e'.1 = e.1 → e'.2.value = "") :
    (l.foldl (GetDriversActionsParameters_flag a) st).2.get n = st.2.get n := by
  induction l generalizing st with
  | nil => rfl
  | cons e₀ l ih =>
    rw [List.foldl_cons, ih]
    · rw [GetDriversActionsParameters_flag_args]
      rcases hw : entry_written a st.1 e₀ with _ | nv
      · rfl
      · have hne : nv.1 ≠ n := by
          intro hn
          have hname : written_name e₀ = n := by
            rw [← hn]
            exact entry_written_name (show entry_written a st.1 e₀ = some (nv.1, nv.2) from hw)
          obtain ⟨hr, hc, hall⟩ := h e₀ (List.mem_cons_self _ _) hname
          have hv := hall e₀ (List.mem_cons_self _ _) rfl
          simp [entry_written, effective, hr, hc, hv] at hw
        exact GoMap.get_set_ne _ _ _ _ hne
    · intro e he hname
      obtain ⟨hr, hc, hall⟩ := h e (List.mem_cons_of_mem _ he) hname
      refine ⟨hr, ?_, fun e' he' => hall e' (List.mem_cons_of_mem _ he')⟩
      rw [GetDriversActionsParameters_flag_cache]
      split
      · rename_i hcond
        by_cases hk : e₀.1 = e.1
        · have hv := hall e₀ (List.mem_cons_self _ _) hk
          have : effective st.1 e₀ = "" := by
            simp [effective, hk, hc, hv]
          exact absurd this hcond.2
        · rw [GoMap.get_set_ne _ _ _ _ hk]
          exact hc
      · exact hc

/-- A value that the cache holds for a name is kept by a turn of the loop. -/
theorem GetDriversActionsParameters_flag_cache_kept (a : Forj)
    (st : GoMap String × GoMap String) (e : String × DriverCmdOptionFlag) (k c : String)
    (h : st.1.get k = some c) :
    (GetDriversActionsParameters_flag a st e).1.get k = some c := by
  rw [GetDriversActionsParameters_flag_cache]
  split
  · by_cases hk : e.1 = k
    · have : effective st.1 e = c := by
        simp [effective, hk, h]
      rw [this, hk]
      exact GoMap.get_set_self _ _ _
    · rw [GoMap.get_set_ne _ _ _ _ hk]
      exact h
  · exact h

/-- A flag of the loop outside the reserved pattern for whose name the cache
holds a non-empty value has an entry under its plugin-facing name after the
loop, whatever its own value. -/
theorem GetDriversActionsParameters_fold_cached (a : Forj)
    (l : List (String × DriverCmdOptionFlag)) (st : GoMap String × GoMap String)
    (e : String × DriverCmdOptionFlag) (c : String) (he : e ∈ l)
    (hr : forjj_regexp_FindStringSubmatch e.1 = none)
    (hc : st.1.get e.1 = some c) (hne : c ≠ "") :
    ((l.foldl (GetDriversActionsParameters_flag a) st).2.get e.2.driver_flag_name).isSome := by
  induction l generalizing st with
  | nil => exact absurd he (List.not_mem_nil _)
  | cons e₀ l ih =>
    rw [List.foldl_cons]
    rcases List.mem_cons.1 he with h | h
    · subst h
      apply (GetDriversActionsParameters_fold_empty a l _).2.1
      rw [GetDriversActionsParameters_flag_args]
      have hw : entry_written a st.1 e = some (e.2.driver_flag_name, c) := by
        simp [entry_written, effective, hr, hc, hne]
      rw [hw]
      simp [GoMap.get_set_self]
    · exact ih _ h (GetDriversActionsParameters_flag_cache_kept a st e₀ e.1 c hc)

/-- C11 (amended): for every driver set and phase, (1) every entry with an empty
value in the map after `GetDriversActionsParameters` was in the map passed in
or is the entry of a flag that matches the reserved pattern and whose internal
value is empty: the entries written for options outside the reserved pattern,
required or not, are never empty; (2) a flag that matches the reserved pattern
always has an entry after the call, whether its internal value is empty or
not; (3) a key is left as the map passed in had it, without entry when that
map had none, when every visited flag written under it is outside the reserved
pattern, has an empty value, as has every visited flag of the same name, and
has no value in the cache for its name; (4) a flag outside the reserved
pattern for whose name the cache holds a non-empty value has an entry under
its plugin-facing name after the call, also when its own value is empty. -/
theorem GetDriversActionsParameters_empty_entries (a : Forj) (cmd_args : GoMap String)
    (cmd : String) :
    (∀ n, (GetDriversActionsParameters a cmd_args cmd).2.get n = some "" →
      cmd_args.get n = some "" ∨
        ∃ e ∈ visited_flags a.drivers cmd, ∃ key,
          forjj_regexp_FindStringSubmatch e.1 = some key ∧ e.1 = n ∧
            GetInternalData a key = "") ∧
    (∀ e ∈ visited_flags a.drivers cmd, forjj_regexp_FindStringSubmatch e.1 ≠ none →
      ((GetDriversActionsParameters a cmd_args cmd).2.get e.1).isSome) ∧
    (∀ n, (∀ e ∈ visited_flags a.drivers cmd, written_name e = n →
        forjj_regexp_FindStringSubmatch e.1 = none ∧
          (a.flags_loaded.getD []).get e.1 = none ∧
          ∀ e' ∈ visited_flags a.drivers cmd, e'.1 = e.1 → e'.2.value = "") →
      (GetDriversActionsParameters a cmd_args cmd).2.get n = cmd_args.get n) ∧
    (∀ e ∈ visited_flags a.drivers cmd, ∀ c,
      forjj_regexp_FindStringSubmatch e.1 = none →
      (a.flags_loaded.getD []).get e.1 = some c → c ≠ "" →
      ((GetDriversActionsParameters a cmd_args cmd).2.get e.2.driver_flag_name).isSome) := by
  rw [GetDriversActionsParameters_eq]
  simp only [assemble]
  obtain ⟨h1, _, h3⟩ := GetDriversActionsParameters_fold_empty a (visited_flags a.drivers cmd)
    (a.flags_loaded.getD [], cmd_args)
  exact ⟨h1, h3,
    fun n h => GetDriversActionsParameters_fold_absent a _ (a.flags_loaded.getD [], cmd_args) n h,
    fun e he c hr hc hne =>
      GetDriversActionsParameters_fold_cached a _ (a.flags_loaded.getD [], cmd_args) e c he hr
        hc hne⟩

/-- C11 (amended) for the driver `git1` running `maintain` with `xyz` in the cache
for `git1-token`, and the flags `forjj-password`, `git1-token` and `git1-key`, all
of empty value: (1) the empty entry of `forjj-password` is the one of a
reserved flag, (2) which has an entry; (3) `key` has no entry; (4) `token` has
one. -/
theorem GetDriversActionsParameters_empty_entries_witness :
    (GoMap.get ([] : GoMap String) "forjj-password" = some "" ∨
      ∃ e ∈ visited_flags forj_cached_token.drivers "maintain", ∃ key,
        forjj_regexp_FindStringSubmatch e.1 = some key ∧ e.1 = "forjj-password" ∧
          GetInternalData forj_cached_token key = "") ∧
    ((GetDriversActionsParameters forj_cached_token [] "maintain").2.get
      "forjj-password").isSome ∧
    (GetDriversActionsParameters forj_cached_token [] "maintain").2.get "key" = none ∧
    ((GetDriversActionsParameters forj_cached_token [] "maintain").2.get "token").isSome :=
  ⟨(GetDriversActionsParameters_empty_entries forj_cached_token [] "maintain").1
      "forjj-password" (by decide),
   (GetDriversActionsParameters_empty_entries forj_cached_token [] "maintain").2.1
      ("forjj-password", { driver_flag_name := "forjj-password", value := "" })
      (by decide) (by decide),
   (GetDriversActionsParameters_empty_entries forj_cached_token [] "maintain").2.2.1
      "key" (by decide),
   (GetDriversActionsParameters_empty_entries forj_cached_token [] "maintain").2.2.2
      ("git1-token", { driver_flag_name := "token", value := "" }) (by decide) "xyz"
      (by decide) (by decide) (by decide)⟩

/-! ## Two calls of `GetDriversActionsParameters` in a row -/

/-- Two caches that give the same value to every visited flag outside the
reserved pattern give the same parameter map. -/
theorem GetDriversActionsParameters_fold_effective (a : Forj)
    (l : List (String × DriverCmdOptionFlag)) (st₁ st₂ : GoMap String × GoMap String)
    (hargs : st₁.2 = st₂.2)
    (hl : ∀ e ∈ l, forjj_regexp_FindStringSubmatch e.1 = none →
      effective st₁.1 e = effective st₂.1 e) :
    (l.foldl (GetDriversActionsParameters_flag a) st₁).2 =
      (l.foldl (GetDriversActionsParameters_flag a) st₂).2 := by
  induction l generalizing st₁ st₂ with
  | nil => simpa using hargs
  | cons e₀ l ih =>
    rw [List.foldl_cons, List.foldl_cons]
    have hw : entry_written a st₁.1 e₀ = entry_written a st₂.1 e₀ := by
      unfold entry_written
      rcases hr : forjj_regexp_FindStringSubmatch e₀.1 with _ | key
      · simp only [hl e₀ (List.mem_cons_self _ _) hr]
      · rfl
    apply ih
    · rw [GetDriversActionsParameters_flag_args, GetDriversActionsParameters_flag_args, hw, hargs]
    · intro e he hr
      rw [GetDriversActionsParameters_flag_cache, GetDriversActionsParameters_flag_cache]
      have h₀ := hl e (List.mem_cons_of_mem _ he) hr
      by_cases hr₀ : forjj_regexp_FindStringSubmatch e₀.1 = none
      · have h₁ := hl e₀ (List.mem_cons_self _ _) hr₀
        by_cases hv : effective st₂.1 e₀ = ""
        · simp [hr₀, h₁, hv, h₀]
        · simp only [hr₀, h₁, hv, ne_eq, not_false_eq_true, and_self, if_true, effective_set, h₀]
      · simp [hr₀, h₀]

/-- What the cache holds for a name after one turn of the loop: what it held,
or, when it held nothing, the value of the flag of that name just visited. -/
theorem GetDriversActionsParameters_flag_cache_get (a : Forj)
    (st : GoMap String × GoMap String) (e₀ : String × DriverCmdOptionFlag) (k : String) :
    (GetDriversActionsParameters_flag a st e₀).1.get k = st.1.get k ∨
    (st.1.get k = none ∧ e₀.1 = k ∧ forjj_regexp_FindStringSubmatch e₀.1 = none ∧
      (GetDriversActionsParameters_flag a st e₀).1.get k = some e₀.2.value) := by
  rw [GetDriversActionsParameters_flag_cache]
  by_cases hc : forjj_regexp_FindStringSubmatch e₀.1 = none ∧ effective st.1 e₀ ≠ ""
  · rw [if_pos hc, GoMap.get_set]
    by_cases hk : e₀.1 = k
    · rw [if_pos hk]
      rcases hg : st.1.get e₀.1 with _ | saved
      · right
        refine ⟨hk ▸ hg, hk, hc.1, ?_⟩
        simp [effective, hg]
      · left
        rw [← hk, hg]
        simp [effective, hg]
    · rw [if_neg hk]
      exact Or.inl rfl
  · rw [if_neg hc]
    exact Or.inl rfl

/-- What the cache holds for a name after the loop: what it held before, or,
when it held nothing, the value of a visited flag of that name. -/
theorem GetDriversActionsParameters_fold_cache_get (a : Forj)
    (l : List (String × DriverCmdOptionFlag)) (st : GoMap String × GoMap String) (k : String) :
    (l.foldl (GetDriversActionsParameters_flag a) st).1.get k = st.1.get k ∨
    (st.1.get k = none ∧ ∃ e ∈ l, e.1 = k ∧ forjj_regexp_FindStringSubmatch e.1 = none ∧
      (l.foldl (GetDriversActionsParameters_flag a) st).1.get k = some e.2.value) := by
  induction l generalizing st with
  | nil => exact Or.inl rfl
  | cons e₀ l ih =>
    rw [List.foldl_cons]
    rcases ih (GetDriversActionsParameters_flag a st e₀) with h | ⟨hn, e, he, hk, hr, hv⟩
    · rcases GetDriversActionsParameters_flag_cache_get a st e₀ k with h' | ⟨h1, h2, h3, h4⟩
      · exact Or.inl (h.trans h')
      · exact Or.inr ⟨h1, e₀, List.mem_cons_self _ _, h2, h3, h.trans h4⟩
    · rcases GetDriversActionsParameters_flag_cache_get a st e₀ k with h' | ⟨_, _, _, h4⟩
      · exact Or.inr ⟨h' ▸ hn, e, List.mem_cons_of_mem _ he, hk, hr, hv⟩
      · rw [hn] at h4
        exact Option.noConfusion h4

/-- C12 (refuted as stated): two calls in a row for `create`, each with an empty
argument map, give different maps (i) when two visited flags have the same
name, here `a-b-c` of the instances `a` and `a-b`, and the first visited has an
empty value: the second call finds for it the value that the first call has
cached for the other; (ii) when the second call visits the drivers in another
order, which Go is free to do, and two instances, here `git1` and `git2`, have
the plugin-facing name `token` in common. -/
theorem GetDriversActionsParameters_twice_differ :
    (GetDriversActionsParameters forj_same_flag_name [] "create").2 = [("c", "x")] ∧
    (GetDriversActionsParameters
        (GetDriversActionsParameters forj_same_flag_name [] "create").1 [] "create").2 =
      [("b-c", "x"), ("c", "x")] ∧
    (GetDriversActionsParameters forj_two_instances [] "create").2 = [("token", "y")] ∧
    (GetDriversActionsParameters
        (reverse_drivers (GetDriversActionsParameters forj_two_instances [] "create").1)
        [] "create").2 = [("token", "x")] := by
  decide

/-- C12 (amended): for every driver set, phase and initial cache in which the
visited flags of the phase that share a name outside the reserved pattern have
the same value (in particular when the flag names are distinct), two calls of
`GetDriversActionsParameters` in a row for the phase, with the same argument
map and the drivers and flags visited in the same order, give equal maps. -/
theorem GetDriversActionsParameters_twice (a : Forj) (cmd_args : GoMap String) (cmd : String)
    (hsame : ∀ e ∈ visited_flags a.drivers cmd, ∀ e' ∈ visited_flags a.drivers cmd,
      forjj_regexp_FindStringSubmatch e.1 = none → e.1 = e'.1 → e.2.value = e'.2.value) :
    (GetDriversActionsParameters (GetDriversActionsParameters a cmd_args cmd).1 cmd_args cmd).2 =
      (GetDriversActionsParameters a cmd_args cmd).2 := by
  rw [GetDriversActionsParameters_eq a cmd_args cmd, GetDriversActionsParameters_eq]
  simp only [assemble, Option.getD_some]
  rw [GetDriversActionsParameters_flag_congr
    { a with flags_loaded := some ((visited_flags a.drivers cmd).foldl
        (GetDriversActionsParameters_flag a) (a.flags_loaded.getD [], cmd_args)).1 } a rfl rfl]
  apply GetDriversActionsParameters_fold_effective
  · rfl
  · intro e he hr
    rcases GetDriversActionsParameters_fold_cache_get a (visited_flags a.drivers cmd)
        (a.flags_loaded.getD [], cmd_args) e.1 with h | ⟨hn, e', he', hk, hr', hv⟩
    · simp only [effective, h]
    · simp only at hn
      simp only [effective, hv, hn]
      exact hsame e' he' e he hr' hk

/-- C12 (amended) for the two instances `git1` and `ci1`, whose flags of phase
`create` have distinct names. -/
theorem GetDriversActionsParameters_twice_witness :
    (GetDriversActionsParameters
        (GetDriversActionsParameters forj_distinct_flags [] "create").1 [] "create").2 =
      (GetDriversActionsParameters forj_distinct_flags [] "create").2 :=
  GetDriversActionsParameters_twice forj_distinct_flags [] "create" (by decide)

/-! ## The visiting order in `GetDriversActionsParameters` -/

/-- A key of the parameter map that no visited flag writes is left as it was. -/
theorem GetDriversActionsParameters_fold_args_other (a : Forj)
    (l : List (String × DriverCmdOptionFlag)) (st : GoMap String × GoMap String) (n : String)
    (hkeys : ∀ e ∈ l, ∀ e' ∈ l, forjj_regexp_FindStringSubmatch e.1 = none → e.1 = e'.1 → e = e')
    (hno : ∀ e ∈ l, ∀ v, entry_written a st.1 e ≠ some (n, v)) :
    (l.foldl (GetDriversActionsParameters_flag a) st).2.get n = st.2.get n := by
  induction l generalizing st with
  | nil => rfl
  | cons e₀ l ih =>
    rw [List.foldl_cons, ih]
    · rw [GetDriversActionsParameters_flag_args]
      rcases hw : entry_written a st.1 e₀ with _ | nv
      · rfl
      · have hne : nv.1 ≠ n := by
          intro h
          exact hno e₀ (List.mem_cons_self _ _) nv.2 (by rw [hw, ← h])
        exact GoMap.get_set_ne _ _ _ _ hne
    · exact fun e he e' he' => hkeys e (List.mem_cons_of_mem _ he) e' (List.mem_cons_of_mem _ he')
    · intro e he v
      rw [entry_written_step a st e₀ e
        (hkeys e₀ (List.mem_cons_self _ _) e (List.mem_cons_of_mem _ he))]
      exact hno e (List.mem_cons_of_mem _ he) v

/-- When no two visited flags share a name outside the reserved pattern or a
key of the parameter map, the entry that a flag writes is in the map after
the loop, wherever the flag is visited. -/
theorem GetDriversActionsParameters_fold_args_written (a : Forj)
    (l : List (String × DriverCmdOptionFlag)) (st : GoMap String × GoMap String)
    (hkeys : ∀ e ∈ l, ∀ e' ∈ l, forjj_regexp_FindStringSubmatch e.1 = none → e.1 = e'.1 → e = e')
    (hnames : ∀ e ∈ l, ∀ e' ∈ l, written_name e = written_name e' → e = e')
    (e : String × DriverCmdOptionFlag) (he : e ∈ l) (n v : String)
    (hw : entry_written a st.1 e = some (n, v)) :
    (l.foldl (GetDriversActionsParameters_flag a) st).2.get n = some v := by
  induction l generalizing st with
  | nil => exact absurd he (List.not_mem_nil _)
  | cons e₀ l ih =>
    have hkeys' : ∀ e ∈ l, ∀ e' ∈ l,
        forjj_regexp_FindStringSubmatch e.1 = none → e.1 = e'.1 → e = e' :=
      fun e he e' he' => hkeys e (List.mem_cons_of_mem _ he) e' (List.mem_cons_of_mem _ he')
    rw [List.foldl_cons]
    by_cases hmem : e ∈ l
    · apply ih _ hkeys'
        (fun e he e' he' => hnames e (List.mem_cons_of_mem _ he) e' (List.mem_cons_of_mem _ he'))
        hmem
      rw [entry_written_step a st e₀ e (hkeys e₀ (List.mem_cons_self _ _) e he)]
      exact hw
    · have heq : e = e₀ := by
        rcases List.mem_cons.1 he with h | h
        · exact h
        · exact absurd h hmem
      subst heq
      rw [GetDriversActionsParameters_fold_args_other a l _ n hkeys']
      · rw [GetDriversActionsParameters_flag_args, hw]
        exact GoMap.get_set_self _ _ _
      · intro e' he' v' hw'
        rw [entry_written_step a st e e'
          (hkeys e (List.mem_cons_self _ _) e' (List.mem_cons_of_mem _ he'))] at hw'
        have h1 := entry_written_name hw'
        have h2 := entry_written_name hw
        have := hnames e' (List.mem_cons_of_mem _ he') e (List.mem_cons_self _ _)
          (h1.trans h2.symm)
        exact hmem (this ▸ he')

/-- A name of the cache that no visited flag stores is left as it was. -/
theorem GetDriversActionsParameters_fold_cache_other (a : Forj)
    (l : List (String × DriverCmdOptionFlag)) (st : GoMap String × GoMap String) (k : String)
    (hkeys : ∀ e ∈ l, ∀ e' ∈ l, forjj_regexp_FindStringSubmatch e.1 = none → e.1 = e'.1 → e = e')
    (hno : ∀ e ∈ l, forjj_regexp_FindStringSubmatch e.1 = none → effective st.1 e ≠ "" →
      e.1 ≠ k) :
    (l.foldl (GetDriversActionsParameters_flag a) st).1.get k = st.1.get k := by
  induction l generalizing st with
  | nil => rfl
  | cons e₀ l ih =>
    rw [List.foldl_cons, ih]
    · rw [GetDriversActionsParameters_flag_cache]
      split
      · rename_i hc
        exact GoMap.get_set_ne _ _ _ _ (hno e₀ (List.mem_cons_self _ _) hc.1 hc.2)
      · rfl
    · exact fun e he e' he' => hkeys e (List.mem_cons_of_mem _ he) e' (List.mem_cons_of_mem _ he')
    · intro e he hr hv
      rw [effective_step a st e₀ e
        (hkeys e₀ (List.mem_cons_self _ _) e (List.mem_cons_of_mem _ he))] at hv
      exact hno e (List.mem_cons_of_mem _ he) hr hv

/-- When no two visited flags share a name outside the reserved pattern, the
value that a flag stores in the cache is there after the loop, wherever the
flag is visited. -/
theorem GetDriversActionsParameters_fold_cache_written (a : Forj)
    (l : List (String × DriverCmdOptionFlag)) (st : GoMap String × GoMap String)
    (hkeys : ∀ e ∈ l, ∀ e' ∈ l, forjj_regexp_FindStringSubmatch e.1 = none → e.1 = e'.1 → e = e')
    (e : String × DriverCmdOptionFlag) (he : e ∈ l)
    (hr : forjj_regexp_FindStringSubmatch e.1 = none) (hv : effective st.1 e ≠ "") :
    (l.foldl (GetDriversActionsParameters_flag a) st).1.get e.1 = some (effective st.1 e) := by
  induction l generalizing st with
  | nil => exact absurd he (List.not_mem_nil _)
  | cons e₀ l ih =>
    have hkeys' : ∀ e ∈ l, ∀ e' ∈ l,
        forjj_regexp_FindStringSubmatch e.1 = none → e.1 = e'.1 → e = e' :=
      fun e he e' he' => hkeys e (List.mem_cons_of_mem _ he) e' (List.mem_cons_of_mem _ he')
    rw [List.foldl_cons]
    by_cases hmem : e ∈ l
    · have hs := effective_step a st e₀ e (hkeys e₀ (List.mem_cons_self _ _) e he)
      rw [← hs]
      exact ih _ hkeys' hmem (by rw [hs]; exact hv)
    · have heq : e = e₀ := by
        rcases List.mem_cons.1 he with h | h
        · exact h
        · exact absurd h hmem
      subst heq
      rw [GetDriversActionsParameters_fold_cache_other a l _ e.1 hkeys']
      · rw [GetDriversActionsParameters_flag_cache, if_pos ⟨hr, hv⟩]
        exact GoMap.get_set_self _ _ _
      · intro e' he' _ _ hk
        have := hkeys e (List.mem_cons_self _ _) e' (List.mem_cons_of_mem _ he') hr hk.symm
        exact hmem (this ▸ he')

/-- C19 (refuted as stated): the instances `git1` and `git2` both declare the
option `token`, resolved to `x` and to `y`; visited in the order `git1`, `git2`
the map assembled for `create` holds `y` under `token`, visited in the other
order it holds `x`. -/
theorem GetDriversActionsParameters_order_dependent :
    (GetDriversActionsParameters forj_two_instances [] "create").2.get "token" = some "y" ∧
    (GetDriversActionsParameters (reverse_drivers forj_two_instances) [] "create").2.get
      "token" = some "x" := by
  decide

/-- C19 (amended): for two visiting orders of the same registry and phase, in
which no two visited flags share a name outside the reserved pattern and no
two are written under the same key of the parameter map (plugin-facing name,
or flag name for a flag of the reserved pattern), the two maps built by
`GetDriversActionsParameters` hold the same value under every key, and so do
the two `flags_loaded` caches. -/
theorem GetDriversActionsParameters_order (a a' : Forj) (cmd_args : GoMap String)
    (cmd : String)
    (hw : a'.w = a.w) (hp : a'.CurrentPluginDriver = a.CurrentPluginDriver)
    (hc : a'.flags_loaded = a.flags_loaded)
    (hperm : (visited_flags a'.drivers cmd).Perm (visited_flags a.drivers cmd))
    (hkeys : ∀ e ∈ visited_flags a.drivers cmd, ∀ e' ∈ visited_flags a.drivers cmd,
      forjj_regexp_FindStringSubmatch e.1 = none → e.1 = e'.1 → e = e')
    (hnames : ∀ e ∈ visited_flags a.drivers cmd, ∀ e' ∈ visited_flags a.drivers cmd,
      written_name e = written_name e' → e = e') :
    (∀ n, (GetDriversActionsParameters a' cmd_args cmd).2.get n =
      (GetDriversActionsParameters a cmd_args cmd).2.get n) ∧
    (∀ k, ((GetDriversActionsParameters a' cmd_args cmd).1.flags_loaded.getD []).get k =
      ((GetDriversActionsParameters a cmd_args cmd).1.flags_loaded.getD []).get k) := by
  have hmem : ∀ e, e ∈ visited_flags a'.drivers cmd ↔ e ∈ visited_flags a.drivers cmd :=
    fun e => hperm.mem_iff
  have hkeys' : ∀ e ∈ visited_flags a'.drivers cmd, ∀ e' ∈ visited_flags a'.drivers cmd,
      forjj_regexp_FindStringSubmatch e.1 = none → e.1 = e'.1 → e = e' :=
    fun e he e' he' => hkeys e ((hmem e).1 he) e' ((hmem e').1 he')
  have hnames' : ∀ e ∈ visited_flags a'.drivers cmd, ∀ e' ∈ visited_flags a'.drivers cmd,
      written_name e = written_name e' → e = e' :=
    fun e he e' he' => hnames e ((hmem e).1 he) e' ((hmem e').1 he')
  rw [GetDriversActionsParameters_eq a', GetDriversActionsParameters_eq a]
  simp only [assemble, Option.getD_some, hc]
  rw [GetDriversActionsParameters_flag_congr a' a hw hp]
  constructor
  · intro n
    by_cases hex : ∃ e ∈ visited_flags a.drivers cmd, ∃ v,
        entry_written a (a.flags_loaded.getD []) e = some (n, v)
    · obtain ⟨e, he, v, hv⟩ := hex
      rw [GetDriversActionsParameters_fold_args_written a _ _ hkeys hnames e he n v hv,
        GetDriversActionsParameters_fold_args_written a _ _ hkeys' hnames' e ((hmem e).2 he) n v
          hv]
    · have hno : ∀ e ∈ visited_flags a.drivers cmd, ∀ v,
          entry_written a (a.flags_loaded.getD []) e ≠ some (n, v) :=
        fun e he v hv => hex ⟨e, he, v, hv⟩
      rw [GetDriversActionsParameters_fold_args_other a _ _ n hkeys hno,
        GetDriversActionsParameters_fold_args_other a _ _ n hkeys'
          (fun e he => hno e ((hmem e).1 he))]
  · intro k
    by_cases hex : ∃ e ∈ visited_flags a.drivers cmd,
        forjj_regexp_FindStringSubmatch e.1 = none ∧
          effective (a.flags_loaded.getD []) e ≠ "" ∧ e.1 = k
    · obtain ⟨e, he, hr, hv, hk⟩ := hex
      subst hk
      rw [GetDriversActionsParameters_fold_cache_written a _ _ hkeys e he hr hv,
        GetDriversActionsParameters_fold_cache_written a _ _ hkeys' e ((hmem e).2 he) hr hv]
    · have hno : ∀ e ∈ visited_flags a.drivers cmd,
          forjj_regexp_FindStringSubmatch e.1 = none →
            effective (a.flags_loaded.getD []) e ≠ "" → e.1 ≠ k :=
        fun e he hr hv hk => hex ⟨e, he, hr, hv, hk⟩
      rw [GetDriversActionsParameters_fold_cache_other a _ _ k hkeys hno,
        GetDriversActionsParameters_fold_cache_other a _ _ k hkeys'
          (fun e he => hno e ((hmem e).1 he))]

/-- C19 (amended) for the instances `git1` and `ci1`, whose flags of phase
`create` have distinct names and distinct plugin-facing names, visited in one
order and in the other. -/
theorem GetDriversActionsParameters_order_witness :
    (∀ n, (GetDriversActionsParameters (reverse_drivers forj_distinct_flags) [] "create").2.get n =
      (GetDriversActionsParameters forj_distinct_flags [] "create").2.get n) ∧
    (∀ k, ((GetDriversActionsParameters (reverse_drivers forj_distinct_flags) []
        "create").1.flags_loaded.getD []).get k =
      ((GetDriversActionsParameters forj_distinct_flags [] "create").1.flags_loaded.getD []).get
        k) :=
  GetDriversActionsParameters_order forj_distinct_flags (reverse_drivers forj_distinct_flags) []
    "create" rfl rfl rfl (List.Perm.swap _ _ _) (by decide) (by decide)

end Forjj
